import Mathlib

/-!
# Verification of the lamco-rdp clipboard core

Shallow embedding of `lamco-clipboard-core` (formats.rs, image.rs,
loop_detector.rs) and proofs about its codecs and loop detector.

Byte buffers are modelled as `List Nat` (each element a byte value),
machine integers as `Nat`/`Int` with explicit wrapping where the source
can overflow, and fallible functions return `Except ClipboardError`.
-/

namespace LamcoRdp

/-- Mirror of the `ClipboardError` enum variants used by the verified
functions.  Message strings follow the source literals. -/
inductive ClipboardError where
  | dataSizeExceeded (actual max : Nat)
  | invalidUtf16
  | invalidUtf8
  | formatConversion (msg : String)
  | imageDecode (msg : String)
  | imageEncode (msg : String)
  deriving DecidableEq, Repr

instance {ε α : Type} [DecidableEq ε] [DecidableEq α] : DecidableEq (Except ε α) :=
  fun x y =>
    match x, y with
    | .ok a, .ok b =>
      if h : a = b then .isTrue (by rw [h]) else .isFalse (by simp [h])
    | .error a, .error b =>
      if h : a = b then .isTrue (by rw [h]) else .isFalse (by simp [h])
    | .ok _, .error _ => .isFalse (by simp)
    | .error _, .ok _ => .isFalse (by simp)

/-- Read the byte at index `i`, defaulting to 0 (callers check bounds first,
mirroring the length guards of the source). -/
def byteAt (data : List Nat) (i : Nat) : Nat := data.getD i 0

/-- `u32::from_le_bytes` on four bytes. -/
def leU32 (b0 b1 b2 b3 : Nat) : Nat :=
  b0 + 256 * b1 + 65536 * b2 + 16777216 * b3

/-- Little-endian u32 read at offset `i` of a buffer. -/
def readU32 (data : List Nat) (i : Nat) : Nat :=
  leU32 (byteAt data i) (byteAt data (i + 1)) (byteAt data (i + 2)) (byteAt data (i + 3))

/-- Little-endian u64 read at offset `i` of a buffer. -/
def readU64 (data : List Nat) (i : Nat) : Nat :=
  readU32 data i + 4294967296 * readU32 data (i + 4)

/-- `i32::from_le_bytes` at offset `i`: two's-complement interpretation. -/
def readI32 (data : List Nat) (i : Nat) : Int :=
  let u := readU32 data i
  if u < 2147483648 then (u : Int) else (u : Int) - 4294967296

/-- `u16::from_le_bytes` at offset `i`. -/
def readU16 (data : List Nat) (i : Nat) : Nat :=
  byteAt data i + 256 * byteAt data (i + 1)

/-- `u16::to_le_bytes`. -/
def u16Le (n : Nat) : List Nat := [n % 256, n / 256 % 256]

/-- `u32::to_le_bytes`. -/
def u32Le (n : Nat) : List Nat :=
  [n % 256, n / 256 % 256, n / 65536 % 256, n / 16777216 % 256]

/-- `i32::to_le_bytes`: two's-complement little-endian encoding. -/
def i32Le (v : Int) : List Nat := u32Le (v % 4294967296).toNat

-- =============================================================================
-- UTF-16 (shared by the text codec, HDROP codec and file descriptors)
-- =============================================================================

/-- Group a byte list into UTF-16LE code units (`chunks_exact(2)`:
a trailing odd byte is dropped). -/
def toU16s : List Nat → List Nat
  | b0 :: b1 :: rest => (b0 + 256 * b1) :: toU16s rest
  | _ => []

/-- One step of UTF-16 decoding: `String::from_utf16` semantics.
Returns the list of unicode scalar values, or `none` on a lone/invalid
surrogate. -/
def utf16Decode : List Nat → Option (List Nat)
  | [] => some []
  | u :: rest =>
    if u < 0xD800 ∨ 0xE000 ≤ u then
      (utf16Decode rest).map (u :: ·)
    else if u < 0xDC00 then
      match rest with
      | v :: rest' =>
        if 0xDC00 ≤ v ∧ v < 0xE000 then
          (utf16Decode rest').map ((0x10000 + (u - 0xD800) * 0x400 + (v - 0xDC00)) :: ·)
        else none
      | [] => none
    else none

/-- `str::encode_utf16` over a list of unicode scalar values. -/
def encodeUtf16 (s : List Nat) : List Nat :=
  s.flatMap fun c =>
    if c < 0x10000 then [c]
    else [0xD800 + (c - 0x10000) / 0x400, 0xDC00 + (c - 0x10000) % 0x400]

/-- One step of UTF-8 decoding (`std::str::from_utf8` semantics): given a
leading byte and the remaining bytes, return the decoded unicode scalar
value and the bytes after the sequence, or `none` if invalid. -/
def utf8Step (c0 : Nat) (rest : List Nat) : Option (Nat × List Nat) :=
  if c0 < 0x80 then some (c0, rest)
  else if 0xC2 ≤ c0 ∧ c0 ≤ 0xDF then
    match rest with
    | c1 :: r =>
      if 0x80 ≤ c1 ∧ c1 ≤ 0xBF then
        some ((c0 - 0xC0) * 64 + (c1 - 0x80), r)
      else none
    | _ => none
  else if 0xE0 ≤ c0 ∧ c0 ≤ 0xEF then
    match rest with
    | c1 :: c2 :: r =>
      if ((if c0 = 0xE0 then 0xA0 else 0x80) ≤ c1 ∧ c1 ≤ (if c0 = 0xED then 0x9F else 0xBF))
          ∧ (0x80 ≤ c2 ∧ c2 ≤ 0xBF) then
        some ((c0 - 0xE0) * 4096 + (c1 - 0x80) * 64 + (c2 - 0x80), r)
      else none
    | _ => none
  else if 0xF0 ≤ c0 ∧ c0 ≤ 0xF4 then
    match rest with
    | c1 :: c2 :: c3 :: r =>
      if ((if c0 = 0xF0 then 0x90 else 0x80) ≤ c1 ∧ c1 ≤ (if c0 = 0xF4 then 0x8F else 0xBF))
          ∧ (0x80 ≤ c2 ∧ c2 ≤ 0xBF) ∧ (0x80 ≤ c3 ∧ c3 ≤ 0xBF) then
        some ((c0 - 0xF0) * 262144 + (c1 - 0x80) * 4096 + (c2 - 0x80) * 64 + (c3 - 0x80), r)
      else none
    | _ => none
  else none

/-- Fuelled UTF-8 decoding loop; each step consumes at least one byte, so
`fuel = length` suffices and the zero-fuel nonempty case is unreachable. -/
def utf8DecodeGo : Nat → List Nat → Option (List Nat)
  | _, [] => some []
  | 0, _ :: _ => none
  | fuel + 1, c0 :: rest =>
    match utf8Step c0 rest with
    | some (s, r) => (utf8DecodeGo fuel r).map (s :: ·)
    | none => none

/-- Full UTF-8 decoder (`std::str::from_utf8` semantics), returning the
decoded unicode scalar values or `none` on invalid UTF-8. -/
def utf8DecodeBytes (l : List Nat) : Option (List Nat) := utf8DecodeGo l.length l

/-- UTF-8 validity (`std::str::from_utf8(..).is_ok()`). -/
def utf8Valid (data : List Nat) : Bool := (utf8DecodeBytes data).isSome

/-- ASCII byte values of a Lean string literal (used for the fixed ASCII
templates of the source). -/
def asciiBytes (s : String) : List Nat := s.data.map Char.toNat

-- =============================================================================
-- str::lines (used by cf_html_to_html and uri_list_to_hdrop)
-- =============================================================================

/-- Strip one trailing CR (the `\r` of a `\r\n` line ending). -/
def stripCr (l : List Nat) : List Nat :=
  if l.getLast? = some 13 then l.dropLast else l

/-- Worker for `linesBytes`; `cur` is the current line, reversed. -/
def linesGo (cur : List Nat) : List Nat → List (List Nat)
  | [] => if cur = [] then [] else [cur.reverse]
  | c :: rest =>
    if c = 10 then stripCr cur.reverse :: linesGo [] rest
    else linesGo (c :: cur) rest

/-- `str::lines`: split at `\n`, stripping a `\r` directly before each `\n`;
the final line ending is optional and a trailing final `\r` (with no `\n`)
is kept. -/
def linesBytes (s : List Nat) : List (List Nat) := linesGo [] s

-- =============================================================================
-- Number parsing helpers (str::parse::<usize>, u8::from_str_radix)
-- =============================================================================

/-- ASCII whitespace bytes removed by `str::trim` (ASCII projection). -/
def isAsciiWs (c : Nat) : Bool :=
  c = 9 ∨ c = 10 ∨ c = 11 ∨ c = 12 ∨ c = 13 ∨ c = 32

/-- `str::trim` for ASCII content. -/
def trimAscii (s : List Nat) : List Nat :=
  ((s.dropWhile isAsciiWs).reverse.dropWhile isAsciiWs).reverse

/-- Decimal value of a digit list (accumulating left fold, as `from_str`). -/
def decValue (t : List Nat) : Nat :=
  t.foldl (fun acc c => acc * 10 + (c - 48)) 0

/-- `str::parse::<usize>`: optional leading plus sign, then one or more
ASCII digits; errors on overflow past `usize::MAX`. -/
def parseUsize (s : List Nat) : Option Nat :=
  let t := if s.head? = some 43 then s.tail else s
  if t ≠ [] ∧ t.all (fun c => 48 ≤ c ∧ c ≤ 57) then
    let v := decValue t
    if v < 18446744073709551616 then some v else none
  else none

/-- Hexadecimal value of one ASCII character. -/
def hexVal (c : Nat) : Option Nat :=
  if 48 ≤ c ∧ c ≤ 57 then some (c - 48)
  else if 65 ≤ c ∧ c ≤ 70 then some (c - 55)
  else if 97 ≤ c ∧ c ≤ 102 then some (c - 87)
  else none

/-- `u8::from_str_radix(s, 16)`: optional leading plus sign then one or
more hex digits, erroring when the value exceeds `u8::MAX`. -/
def u8FromStrRadix16 (s : List Nat) : Option Nat :=
  let t := if s.head? = some 43 then s.tail else s
  if t = [] then none
  else
    t.foldl
      (fun acc c =>
        match acc, hexVal c with
        | some a, some d => if a * 16 + d ≤ 255 then some (a * 16 + d) else none
        | _, _ => none)
      (some 0)

/-- Most-significant-first ASCII decimal digits of `n` (fuelled worker). -/
def decDigitsGo : Nat → Nat → List Nat
  | 0, _ => []
  | fuel + 1, n =>
    if n < 10 then [48 + n]
    else decDigitsGo fuel (n / 10) ++ [48 + n % 10]

/-- ASCII decimal rendering of `n`. -/
def decDigits (n : Nat) : List Nat := decDigitsGo (n + 1) n

/-- `format!("{:08}", n)`: decimal rendering zero-padded to width 8
(wider values keep all their digits). -/
def pad8 (n : Nat) : List Nat :=
  List.replicate (8 - (decDigits n).length) 48 ++ decDigits n

-- =============================================================================
-- FormatConverter: text codec (formats.rs)
-- =============================================================================

/-- `FormatConverter::unicode_to_text`.  `maxSize` is the converter's
`max_size` field; strings are lists of unicode scalar values. -/
def unicode_to_text (maxSize : Nat) (data : List Nat) : Except ClipboardError (List Nat) :=
  if data.length > maxSize then
    .error (.dataSizeExceeded data.length maxSize)
  else if data.length % 2 ≠ 0 then
    .error .invalidUtf16
  else
    match utf16Decode (if (toU16s data).getLast? = some 0
        then (toU16s data).dropLast else toU16s data) with
    | some s => .ok s
    | none => .error .invalidUtf16

-- =============================================================================
-- FormatConverter: CF_HTML codec (formats.rs)
-- =============================================================================

/-- The fixed CF_HTML header template of the source. -/
def cfHtmlHeaderTemplate : List Nat :=
  asciiBytes
    "Version:0.9\r\nStartHTML:XXXXXXXX\r\nEndHTML:XXXXXXXX\r\nStartFragment:XXXXXXXX\r\nEndFragment:XXXXXXXX\r\n"

/-- The fixed fragment prefix of the source. -/
def cfHtmlPrefix : List Nat := asciiBytes "<html><body><!--StartFragment-->"

/-- The fixed fragment suffix of the source. -/
def cfHtmlSuffix : List Nat := asciiBytes "<!--EndFragment--></body></html>"

/-- `FormatConverter::html_to_cf_html` (byte-level; a Rust `str` is its
UTF-8 byte sequence and `str::len` its byte length). -/
def html_to_cf_html (maxSize : Nat) (html : List Nat) : Except ClipboardError (List Nat) :=
  if html.length > maxSize then
    .error (.dataSizeExceeded html.length maxSize)
  else
    let header_len := cfHtmlHeaderTemplate.length
    let start_html := header_len
    let start_fragment := header_len + cfHtmlPrefix.length
    let end_fragment := start_fragment + html.length
    let end_html := end_fragment + cfHtmlSuffix.length
    let header :=
      asciiBytes "Version:0.9\r\nStartHTML:" ++ pad8 start_html
        ++ asciiBytes "\r\nEndHTML:" ++ pad8 end_html
        ++ asciiBytes "\r\nStartFragment:" ++ pad8 start_fragment
        ++ asciiBytes "\r\nEndFragment:" ++ pad8 end_fragment ++ [13, 10]
    .ok (header ++ cfHtmlPrefix ++ html ++ cfHtmlSuffix)

/-- `FormatConverter::parse_header_value`: find the first line starting
with `key` and parse the rest of that line as a number. -/
def parse_header_value (text : List Nat) (key : List Nat) (keyName : String) :
    Except ClipboardError Nat :=
  match (linesBytes text).find? (fun line => key.isPrefixOf line) with
  | some line =>
    match parseUsize (trimAscii (line.drop key.length)) with
    | some v => .ok v
    | none => .error (.formatConversion ("missing " ++ keyName ++ " header"))
  | none => .error (.formatConversion ("missing " ++ keyName ++ " header"))

/-- `FormatConverter::cf_html_to_html` (byte-level). -/
def cf_html_to_html (data : List Nat) : Except ClipboardError (List Nat) :=
  if ¬ utf8Valid data then .error .invalidUtf8
  else
    match parse_header_value data (asciiBytes "StartFragment:") "StartFragment:" with
    | .error e => .error e
    | .ok start_fragment =>
      match parse_header_value data (asciiBytes "EndFragment:") "EndFragment:" with
      | .error e => .error e
      | .ok end_fragment =>
        if start_fragment ≥ end_fragment ∨ end_fragment > data.length then
          .error (.formatConversion "invalid CF_HTML offsets")
        else
          .ok ((data.drop start_fragment).take (end_fragment - start_fragment))

-- =============================================================================
-- URL encoding helpers (formats.rs)
-- =============================================================================

/-- `percent_decode`: on `%` (37), the next two characters are consumed
and parsed as hex; on a parse failure the `%` and those characters are
kept. -/
def percent_decode : List Nat → List Nat
  | [] => []
  | c :: rest =>
    if c = 37 then
      match rest with
      | [] => [37]
      | [h1] =>
        (match u8FromStrRadix16 [h1] with
         | some b => [b]
         | none => [37, h1])
      | h1 :: h2 :: rest' =>
        match u8FromStrRadix16 [h1, h2] with
        | some b => b :: percent_decode rest'
        | none => 37 :: h1 :: h2 :: percent_decode rest'
    else c :: percent_decode rest

/-- `percent_encode`: encode space, hash, percent and question mark. -/
def percent_encode (s : List Nat) : List Nat :=
  s.flatMap fun c =>
    if c = 32 then [37, 50, 48]
    else if c = 35 then [37, 50, 51]
    else if c = 37 then [37, 50, 53]
    else if c = 63 then [37, 51, 70]
    else [c]

-- =============================================================================
-- FormatConverter: HDROP codec (formats.rs)
-- =============================================================================

/-- The `paths` binding of `FormatConverter::uri_list_to_hdrop`: lines that
are not comments, stripped of their `file://` prefix.  Strings are lists of
unicode scalar values. -/
def hdropPaths (uri_list : List Nat) : List (List Nat) :=
  ((linesBytes uri_list).filter (fun line => line.head? ≠ some 35)).filterMap
    (fun line =>
      if (asciiBytes "file://").isPrefixOf line then some (line.drop 7) else none)

/-- `FormatConverter::uri_list_to_hdrop` (its `let paths` binding is the
top-level `hdropPaths`). -/
def uri_list_to_hdrop (uri_list : List Nat) : Except ClipboardError (List Nat) :=
  if hdropPaths uri_list = [] then
    .error (.formatConversion "no valid file URIs")
  else
    .ok (u32Le 20 ++ i32Le 0 ++ i32Le 0 ++ u32Le 0 ++ u32Le 1
      ++ ((hdropPaths uri_list).flatMap fun path =>
            (encodeUtf16 (percent_decode path)).flatMap u16Le ++ [0, 0])
      ++ [0, 0])

/-- Wide-path scanning loop of `hdrop_to_uri_list` over the UTF-16 code
units after `pFiles` (fuelled; each outer iteration consumes at least one
unit, so `fuel = units.length` suffices). -/
def parseWideGo : Nat → List Nat → List (List Nat)
  | 0, _ => []
  | _ + 1, [] => []
  | fuel + 1, u :: rest0 =>
    if u = 0 then []
    else
      let chars := (u :: rest0).takeWhile (· ≠ 0)
      let rest := ((u :: rest0).dropWhile (· ≠ 0)).drop 1
      match utf16Decode chars with
      | some p => p :: parseWideGo fuel rest
      | none => parseWideGo fuel rest

/-- ANSI-path scanning loop of `hdrop_to_uri_list` (fuelled). -/
def parseAnsiGo : Nat → List Nat → List (List Nat)
  | 0, _ => []
  | _ + 1, [] => []
  | fuel + 1, b :: rest0 =>
    if b = 0 then []
    else
      let chunk := (b :: rest0).takeWhile (· ≠ 0)
      let rest := ((b :: rest0).dropWhile (· ≠ 0)).drop 1
      match utf8DecodeBytes chunk with
      | some p => p :: parseAnsiGo fuel rest
      | none => parseAnsiGo fuel rest

/-- `FormatConverter::hdrop_to_uri_list` (the source's `let` bindings for
`p_files`, `f_wide`, `file_data` and the collected paths are inlined). -/
def hdrop_to_uri_list (data : List Nat) : Except ClipboardError (List Nat) :=
  if data.length < 20 then
    .error (.formatConversion "HDROP too small")
  else if readU32 data 0 ≥ data.length then
    .error (.formatConversion "invalid pFiles offset")
  else
    .ok (List.intercalate [13, 10]
      ((if readU32 data 16 ≠ 0 then
          parseWideGo (toU16s (data.drop (readU32 data 0))).length
            (toU16s (data.drop (readU32 data 0)))
        else
          parseAnsiGo (data.drop (readU32 data 0)).length
            (data.drop (readU32 data 0))).map
        fun p => asciiBytes "file://" ++ percent_encode p))

-- =============================================================================
-- File descriptors (formats.rs: FileDescriptorFlags, FileDescriptor)
-- =============================================================================

/-- `FileDescriptorFlags` constants. -/
def FD_ATTRIBUTES : Nat := 0x00000001
def FD_FILESIZE : Nat := 0x00000040
def FD_WRITESTIME : Nat := 0x00000020
def FD_CREATETIME : Nat := 0x00000002
def FD_ACCESSTIME : Nat := 0x00000010

/-- `FileDescriptorFlags::has_flag`: `(self.0 & flag) != 0`. -/
def hasFlag (flags flag : Nat) : Bool := flags &&& flag ≠ 0

/-- Mirror of the `FileDescriptor` struct.  The decoded name is kept as the
list of unicode scalar values of the Rust `String`. -/
structure FileDescriptor where
  flags : Nat
  attributes : Nat
  creation_time : Option Nat
  access_time : Option Nat
  write_time : Option Nat
  size : Option Nat
  name : List Nat
  deriving DecidableEq, Repr

namespace FileDescriptor

/-- `FileDescriptor::parse_utf16_filename`. -/
def parse_utf16_filename (data : List Nat) : Except ClipboardError (List Nat) :=
  if data.length % 2 ≠ 0 then
    .error .invalidUtf16
  else
    match utf16Decode ((toU16s data).takeWhile (· ≠ 0)) with
    | some s => .ok s
    | none => .error .invalidUtf16

/-- `FileDescriptor::parse`: parse one 592-byte FILEDESCRIPTORW record.
The source binds each field with a `let`; the bindings are inlined here. -/
def parse (data : List Nat) : Except ClipboardError FileDescriptor :=
  if data.length < 592 then
    .error (.formatConversion ("FILEDESCRIPTORW too small: " ++ toString data.length
      ++ " bytes (need 592)"))
  else
    match parse_utf16_filename ((data.drop 72).take 520) with
    | .ok name =>
      .ok { flags := readU32 data 0
            attributes := readU32 data 36
            creation_time :=
              if hasFlag (readU32 data 0) FD_CREATETIME then some (readU64 data 40) else none
            access_time :=
              if hasFlag (readU32 data 0) FD_ACCESSTIME then some (readU64 data 48) else none
            write_time :=
              if hasFlag (readU32 data 0) FD_WRITESTIME then some (readU64 data 56) else none
            size :=
              if hasFlag (readU32 data 0) FD_FILESIZE then
                some (4294967296 * readU32 data 64 + readU32 data 68)
              else none
            name := name }
    | .error e => .error e

/-- Helper for `parse_list`: parse `count` consecutive 592-byte records
starting at the front of `data`. -/
def parseRecords : Nat → List Nat → Except ClipboardError (List FileDescriptor)
  | 0, _ => .ok []
  | n + 1, data =>
    match parse (data.take 592) with
    | .ok d =>
      match parseRecords n (data.drop 592) with
      | .ok ds => .ok (d :: ds)
      | .error e => .error e
    | .error e => .error e

/-- `FileDescriptor::parse_list`: count-prefixed list of 592-byte records
(the source's `let count`/`let expected_size` bindings are inlined). -/
def parse_list (data : List Nat) : Except ClipboardError (List FileDescriptor) :=
  if data.length < 4 then
    .error (.formatConversion "FileGroupDescriptorW too small for count")
  else if readU32 data 0 = 0 then
    .ok []
  else if data.length < 4 + readU32 data 0 * 592 then
    .error (.formatConversion ("FileGroupDescriptorW too small: "
      ++ toString data.length ++ " bytes (need " ++ toString (4 + readU32 data 0 * 592)
      ++ " for " ++ toString (readU32 data 0) ++ " files)"))
  else
    parseRecords (readU32 data 0) (data.drop 4)

end FileDescriptor

-- =============================================================================
-- Image codec (image.rs)
-- =============================================================================

/-- `usize` wrap-around (release-mode Rust wraps on overflow). -/
def wrap64 (n : Nat) : Nat := n % 18446744073709551616

/-- `u32` wrap-around. -/
def wrap32 (n : Nat) : Nat := n % 4294967296

/-- Model of `image::DynamicImage` restricted to the variants the DIB
codec produces: RGBA8 and RGB8 pixel buffers. -/
inductive DynImage where
  | rgba8 (width height : Nat) (data : List Nat)
  | rgb8 (width height : Nat) (data : List Nat)
  deriving DecidableEq, Repr

/-- The RGBA→BGRA pixel loop of `create_dib_from_image`: swap the first
and third byte of every 4-byte pixel. -/
def bgraOfRgba : List Nat → List Nat
  | r :: g :: b :: a :: rest => b :: g :: r :: a :: bgraOfRgba rest
  | _ => []

/-- `create_dib_from_image` on an RGBA8 image `width × height` with pixel
buffer `rgba` (the source's `image.to_rgba8()`; a valid buffer has
`rgba.length = width * height * 4`).  The function never fails. -/
def create_dib_from_image (width height : Nat) (rgba : List Nat) : List Nat :=
  let widthI : Int := if width ≤ 2147483647 then (width : Int) else 2147483647
  let heightI : Int := -(if height ≤ 2147483647 then (height : Int) else 2147483647)
  let image_size := min (min (width * height) 4294967295 * 4) 4294967295
  u32Le 40 ++ i32Le widthI ++ i32Le heightI ++ u16Le 1 ++ u16Le 32 ++ u32Le 0
    ++ u32Le image_size ++ i32Le 0 ++ i32Le 0 ++ u32Le 0 ++ u32Le 0
    ++ bgraOfRgba rgba

/-- One pixel read of `convert_32bit_dib`: guarded BGRA→RGBA swizzle at
byte offset `off`. -/
def pix32 (pd : List Nat) (off : Nat) : List Nat :=
  if wrap64 (off + 3) < pd.length then
    [byteAt pd (off + 2), byteAt pd (off + 1), byteAt pd off, byteAt pd (off + 3)]
  else []

/-- The `rgba_data` loop of `convert_32bit_dib`. -/
def rgba32Data (pd : List Nat) (width height : Nat) (top_down : Bool) : List Nat :=
  (List.range height).flatMap fun y =>
    (List.range width).flatMap fun x =>
      pix32 pd (wrap64 (wrap64 ((if top_down then y else height - 1 - y) * width * 4) + x * 4))

/-- `convert_32bit_dib` (its `let` bindings are the top-level `rgba32Data`
and the inlined `expected_size`; the final guard is `RgbaImage::from_raw`,
which requires the buffer to hold `width*height*4` values). -/
def convert_32bit_dib (pd : List Nat) (width height : Nat) (top_down : Bool) :
    Except ClipboardError DynImage :=
  if pd.length < wrap64 (width * height * 4) then
    .error (.imageDecode ("Insufficient pixel data: " ++ toString pd.length
      ++ " < " ++ toString (wrap64 (width * height * 4))))
  else if width * height * 4 < 18446744073709551616
      ∧ width * height * 4 ≤ (rgba32Data pd width height top_down).length then
    .ok (.rgba8 width height (rgba32Data pd width height top_down))
  else
    .error (.imageDecode "Failed to create image from DIB")

/-- One pixel read of `convert_24bit_dib`: guarded BGR→RGB swizzle. -/
def pix24 (pd : List Nat) (off : Nat) : List Nat :=
  if wrap64 (off + 2) < pd.length then
    [byteAt pd (off + 2), byteAt pd (off + 1), byteAt pd off]
  else []

/-- The 24-bit row stride: rows are padded to 4-byte boundaries
(`(width * 3).div_ceil(4) * 4` in `u32` arithmetic). -/
def rowSize24 (width : Nat) : Nat := wrap32 ((wrap32 (width * 3) + 4 - 1) / 4 * 4)

/-- The `rgb_data` loop of `convert_24bit_dib`. -/
def rgb24Data (pd : List Nat) (width height : Nat) (top_down : Bool) : List Nat :=
  (List.range height).flatMap fun y =>
    (List.range width).flatMap fun x =>
      pix24 pd (wrap64 ((if top_down then y else height - 1 - y) * rowSize24 width
        + wrap64 (x * 3)))

/-- `convert_24bit_dib` (`let` bindings hoisted to `rowSize24`/`rgb24Data`). -/
def convert_24bit_dib (pd : List Nat) (width height : Nat) (top_down : Bool) :
    Except ClipboardError DynImage :=
  if pd.length < rowSize24 width * height then
    .error (.imageDecode ("Insufficient pixel data: " ++ toString pd.length
      ++ " < " ++ toString (rowSize24 width * height)))
  else if width * height * 3 < 18446744073709551616
      ∧ width * height * 3 ≤ (rgb24Data pd width height top_down).length then
    .ok (.rgb8 width height (rgb24Data pd width height top_down))
  else
    .error (.imageDecode "Failed to create image from DIB")

/-- `parse_dib_to_image` (the source's `let` bindings for `bi_size`,
`width`, `height`, `top_down`, `bit_count` and `pixel_data` are inlined). -/
def parse_dib_to_image (dib : List Nat) : Except ClipboardError DynImage :=
  if dib.length < 40 then .error (.imageDecode "DIB too small")
  else if readU32 dib 0 < 40 then .error (.imageDecode "Invalid DIB header size")
  else if readU32 dib 0 ≥ dib.length then .error (.imageDecode "DIB header larger than data")
  else if readU16 dib 14 = 32 then
    convert_32bit_dib (dib.drop (readU32 dib 0)) (readI32 dib 4).natAbs
      (readI32 dib 8).natAbs (readI32 dib 8 < 0)
  else if readU16 dib 14 = 24 then
    convert_24bit_dib (dib.drop (readU32 dib 0)) (readI32 dib 4).natAbs
      (readI32 dib 8).natAbs (readI32 dib 8 < 0)
  else .error (.imageDecode ("Unsupported DIB bit depth: " ++ toString (readU16 dib 14)))

/-- `dib_to_bmp`: wrap a 14-byte BMP file header around a DIB payload.
`u32::try_from(14 + len)` fails (`DIB too large`) past `u32::MAX`. -/
def dib_to_bmp (dib : List Nat) : Except ClipboardError (List Nat) :=
  if dib.length < 40 then .error (.imageDecode "DIB too small")
  else if 14 + dib.length > 4294967295 then .error (.imageDecode "DIB too large")
  else .ok ([66, 77] ++ u32Le (14 + dib.length) ++ u16Le 0 ++ u16Le 0 ++ u32Le 54 ++ dib)

/-- `bmp_to_dib`: strip the 14-byte BMP file header (66 77 = `"BM"`). -/
def bmp_to_dib (bmp : List Nat) : Except ClipboardError (List Nat) :=
  if bmp.length < 14 then .error (.imageDecode "BMP file too small")
  else if bmp.take 2 ≠ [66, 77] then .error (.imageDecode "Invalid BMP signature")
  else .ok (bmp.drop 14)

-- =============================================================================
-- Loop detector (loop_detector.rs)
-- =============================================================================

/-- `ClipboardSource`. -/
inductive ClipboardSource where
  | rdp
  | loc
  deriving DecidableEq, Repr

/-- `ClipboardSource::opposite`. -/
def ClipboardSource.opposite : ClipboardSource → ClipboardSource
  | .rdp => .loc
  | .loc => .rdp

/-- `ClipboardFormat`: format id plus optional registered name (the name
is kept as its byte sequence). -/
structure ClipboardFormat where
  id : Nat
  name : Option (List Nat)
  deriving DecidableEq, Repr

/-- `LoopDetectionConfig`. -/
structure LoopDetectionConfig where
  window_ms : Nat
  max_history : Nat
  enable_content_hashing : Bool
  deriving DecidableEq, Repr

/-- `LoopDetectionConfig::default`. -/
def defaultLoopConfig : LoopDetectionConfig :=
  { window_ms := 500, max_history := 10, enable_content_hashing := true }

/-- `ClipboardOperation`: recorded hash, source and timestamp.  Instants
are modelled as millisecond counts; `Instant::duration_since` is the
saturating difference `now - timestamp`. -/
structure ClipboardOperation where
  hash : List Nat
  source : ClipboardSource
  timestamp : Nat
  deriving DecidableEq, Repr

/-- `LoopDetector`: history queues, front = oldest. -/
structure LoopDetector where
  config : LoopDetectionConfig
  format_history : List ClipboardOperation
  content_history : List ClipboardOperation
  deriving DecidableEq, Repr

/-- `LoopDetector::with_config`. -/
def LoopDetector.with_config (config : LoopDetectionConfig) : LoopDetector :=
  { config, format_history := [], content_history := [] }

/-- `LoopDetector::hash_formats`.  The SHA-256 digest is modelled by the
exact byte stream fed to the hasher (each format's id in little-endian
followed by its name bytes, in list order): the claims only use that the
digest is a deterministic function of that stream, equal for equal
streams. -/
def hash_formats (formats : List ClipboardFormat) : List Nat :=
  formats.flatMap fun f => u32Le f.id ++ f.name.getD []

/-- The eviction loop of `cleanup_history`: pop front entries older than
the doubled window. -/
def evictOld (window now : Nat) (h : List ClipboardOperation) : List ClipboardOperation :=
  h.dropWhile fun op => now - op.timestamp > window

/-- The size-trimming loop of `cleanup_history`: pop front entries until
`len ≤ maxHistory`. -/
def trimDown (maxHistory : Nat) (h : List ClipboardOperation) : List ClipboardOperation :=
  h.drop (h.length - maxHistory)

/-- `LoopDetector::cleanup_history`: evict entries older than
`2 × window_ms`, then trim the front until `len ≤ max_history`. -/
def LoopDetector.cleanup_history (d : LoopDetector) (now : Nat) : LoopDetector :=
  { d with
    format_history :=
      trimDown d.config.max_history (evictOld (d.config.window_ms * 2) now d.format_history)
    content_history :=
      trimDown d.config.max_history (evictOld (d.config.window_ms * 2) now d.content_history) }

/-- `LoopDetector::record_formats` (the source's push to a discarded
clone of the history is dead code and has no effect). -/
def LoopDetector.record_formats (d : LoopDetector) (formats : List ClipboardFormat)
    (source : ClipboardSource) (now : Nat) : LoopDetector :=
  LoopDetector.cleanup_history
    { d with
      format_history :=
        d.format_history ++ [{ hash := hash_formats formats, source, timestamp := now }] }
    now

/-- The scan of `check_hash_collision`, most recent entry first. -/
def checkGo (window now : Nat) (hash : List Nat) (opp : ClipboardSource) :
    List ClipboardOperation → Bool
  | [] => false
  | op :: rest =>
    if now - op.timestamp > window then false
    else if op.source = opp ∧ op.hash = hash then true
    else checkGo window now hash opp rest

/-- `LoopDetector::check_hash_collision`. -/
def check_hash_collision (d : LoopDetector) (history : List ClipboardOperation)
    (hash : List Nat) (current_source : ClipboardSource) (now : Nat) : Bool :=
  checkGo d.config.window_ms now hash current_source.opposite history.reverse

/-- `LoopDetector::would_cause_loop`: checks the format history as the
`Local` side. -/
def LoopDetector.would_cause_loop (d : LoopDetector) (formats : List ClipboardFormat)
    (now : Nat) : Bool :=
  check_hash_collision d d.format_history (hash_formats formats) .loc now

/-- `LoopDetector::clear`. -/
def LoopDetector.clear (d : LoopDetector) : LoopDetector :=
  { d with format_history := [], content_history := [] }

-- =============================================================================
-- Helper lemmas
-- =============================================================================

theorem toDigitsCore_length_ge (b : Nat) :
    ∀ (fuel n : Nat) (ds : List Char),
      ds.length + 1 ≤ (Nat.toDigitsCore b (fuel + 1) n ds).length := by
  intro fuel
  induction fuel with
  | zero =>
    intro n ds
    rw [Nat.toDigitsCore]
    split
    · simp
    · rw [Nat.toDigitsCore]
      simp
  | succ f ih =>
    intro n ds
    rw [Nat.toDigitsCore]
    split
    · simp
    · exact le_trans (by simp) (ih (n / b) (Nat.digitChar (n % b) :: ds))

theorem toString_nat_length_pos (n : Nat) : 1 ≤ (toString n).length := by
  show 1 ≤ (Nat.repr n).length
  rw [Nat.repr, List.asString, String.length_mk]
  exact le_trans (by simp) (toDigitsCore_length_ge 10 n n [])

theorem utf16Decode_cons_bmp (u : Nat) (rest : List Nat) (h : u < 0xD800 ∨ 0xE000 ≤ u) :
    utf16Decode (u :: rest) = (utf16Decode rest).map (u :: ·) := by
  rw [utf16Decode.eq_def]
  dsimp only
  rw [if_pos h]

theorem utf16Decode_cons_pair (u v : Nat) (rest : List Nat)
    (hno : ¬(u < 0xD800 ∨ 0xE000 ≤ u)) (hlt : u < 0xDC00) (hv : 0xDC00 ≤ v ∧ v < 0xE000) :
    utf16Decode (u :: v :: rest)
      = (utf16Decode rest).map ((0x10000 + (u - 0xD800) * 0x400 + (v - 0xDC00)) :: ·) := by
  rw [utf16Decode.eq_def]
  dsimp only
  rw [if_neg hno, if_pos hlt, if_pos hv]

theorem utf16Decode_cons_pair_invalid (u v : Nat) (rest : List Nat)
    (hno : ¬(u < 0xD800 ∨ 0xE000 ≤ u)) (hlt : u < 0xDC00)
    (hbad : ¬(0xDC00 ≤ v ∧ v < 0xE000)) :
    utf16Decode (u :: v :: rest) = none := by
  rw [utf16Decode.eq_def]
  dsimp only
  rw [if_neg hno, if_pos hlt, if_neg hbad]

theorem utf16Decode_single_high (u : Nat)
    (hno : ¬(u < 0xD800 ∨ 0xE000 ≤ u)) (hlt : u < 0xDC00) :
    utf16Decode [u] = none := by
  rw [utf16Decode.eq_def]
  dsimp only
  rw [if_neg hno, if_pos hlt]

theorem utf16Decode_cons_low (u : Nat) (rest : List Nat)
    (hno : ¬(u < 0xD800 ∨ 0xE000 ≤ u)) (hge : ¬ u < 0xDC00) :
    utf16Decode (u :: rest) = none := by
  rw [utf16Decode.eq_def]
  dsimp only
  rw [if_neg hno, if_neg hge]

/-- Appending one zero code unit to a UTF-16 sequence preserves validity
and appends a NUL scalar to the decoding. -/
theorem utf16Decode_append_zero (l : List Nat) :
    utf16Decode (l ++ [0]) = (utf16Decode l).map (· ++ [0]) := by
  induction l using utf16Decode.induct with
  | case1 => simp [utf16Decode]
  | case2 u rest h ih =>
    rw [List.cons_append, utf16Decode_cons_bmp u _ h, utf16Decode_cons_bmp u _ h, ih]
    cases utf16Decode rest <;> simp
  | case3 u hno hlt v rest hv ih =>
    rw [show (u :: v :: rest ++ [0] : List Nat) = u :: v :: (rest ++ [0]) from rfl,
      utf16Decode_cons_pair u v (rest ++ [0]) hno hlt hv,
      utf16Decode_cons_pair u v rest hno hlt hv, ih]
    cases utf16Decode rest <;> simp
  | case4 u hno hlt v rest hbad =>
    rw [show (u :: v :: rest ++ [0] : List Nat) = u :: v :: (rest ++ [0]) from rfl,
      utf16Decode_cons_pair_invalid u v (rest ++ [0]) hno hlt hbad,
      utf16Decode_cons_pair_invalid u v rest hno hlt hbad]
    rfl
  | case5 u hno hlt =>
    rw [show ([u] ++ [0] : List Nat) = u :: 0 :: [] from rfl,
      utf16Decode_cons_pair_invalid u 0 [] hno hlt (by omega),
      utf16Decode_single_high u hno hlt]
    rfl
  | case6 u rest hno hge =>
    rw [show (u :: rest ++ [0] : List Nat) = u :: (rest ++ [0]) from rfl,
      utf16Decode_cons_low u (rest ++ [0]) hno hge,
      utf16Decode_cons_low u rest hno hge]
    rfl

/-- Every error of `parse_utf16_filename` is `InvalidEncoding`. -/
theorem parse_utf16_filename_error (fb : List Nat) (e : ClipboardError)
    (h : FileDescriptor.parse_utf16_filename fb = .error e) : e = .invalidUtf16 := by
  unfold FileDescriptor.parse_utf16_filename at h
  split at h
  · exact (Except.error.inj h).symm
  · split at h
    · exact absurd h (by simp)
    · exact (Except.error.inj h).symm

/-- Every error of `FileDescriptor.parse` on a buffer of at least 592 bytes
is `InvalidEncoding` (the filename field is not valid UTF-16). -/
theorem fd_parse_error_of_len (data : List Nat) (h592 : 592 ≤ data.length)
    (e : ClipboardError) (h : FileDescriptor.parse data = .error e) :
    e = .invalidUtf16 := by
  unfold FileDescriptor.parse at h
  rw [if_neg (by omega)] at h
  split at h
  · exact absurd h (by simp)
  · rename_i e' heq
    exact (Except.error.inj h) ▸ parse_utf16_filename_error _ e' heq

/-- Every error of `parseRecords` with enough data is `InvalidEncoding`. -/
theorem parseRecords_error (n : Nat) :
    ∀ (data : List Nat), n * 592 ≤ data.length →
      ∀ e, FileDescriptor.parseRecords n data = .error e → e = .invalidUtf16 := by
  induction n with
  | zero =>
    intro data _ e h
    exact absurd h (by simp [FileDescriptor.parseRecords])
  | succ k ih =>
    intro data hlen e h
    unfold FileDescriptor.parseRecords at h
    cases hp : FileDescriptor.parse (data.take 592) with
    | ok d =>
      rw [hp] at h
      cases hr : FileDescriptor.parseRecords k (data.drop 592) with
      | ok ds => rw [hr] at h; exact absurd h (by simp)
      | error e' =>
        rw [hr] at h
        refine (Except.error.inj h) ▸ ih (data.drop 592) ?_ e' hr
        simp only [List.length_drop]
        omega
    | error e' =>
      rw [hp] at h
      refine (Except.error.inj h) ▸ fd_parse_error_of_len _ ?_ e' hp
      simp only [List.length_take]
      omega

-- =============================================================================
-- Claim theorems
-- =============================================================================

set_option maxRecDepth 8192 in
/-- C7: `FileDescriptor::parse` fails with `FormatConversion` on any buffer of
exactly 591 bytes, and on 592 zero bytes succeeds with `creation_time`,
`access_time`, `write_time` and `size` all `None` and an empty name. -/
theorem c7_fd_parse_boundary (data : List Nat) (h : data.length = 591) :
    FileDescriptor.parse data =
      .error (.formatConversion "FILEDESCRIPTORW too small: 591 bytes (need 592)")
    ∧ FileDescriptor.parse (List.replicate 592 0) =
      .ok { flags := 0, attributes := 0, creation_time := none, access_time := none,
            write_time := none, size := none, name := [] } := by
  constructor
  · unfold FileDescriptor.parse
    rw [h, if_pos (by omega)]
    rfl
  · decide

set_option maxRecDepth 8192 in
/-- C7 witness: the two boundary facts at a concrete 591-byte buffer. -/
theorem c7_fd_parse_boundary_witness :
    FileDescriptor.parse (List.replicate 591 7) =
      .error (.formatConversion "FILEDESCRIPTORW too small: 591 bytes (need 592)")
    ∧ FileDescriptor.parse (List.replicate 592 0) =
      .ok { flags := 0, attributes := 0, creation_time := none, access_time := none,
            write_time := none, size := none, name := [] } :=
  c7_fd_parse_boundary (List.replicate 591 7) (by decide)

/-- C9: every descriptor returned by `FileDescriptor::parse` has
`creation_time` populated iff flag bit 0x02 is set, `access_time` iff 0x10,
`write_time` iff 0x20 and `size` iff 0x40. -/
theorem c9_fd_parse_flag_iff (data : List Nat) (fd : FileDescriptor)
    (h : FileDescriptor.parse data = .ok fd) :
    fd.creation_time.isSome = hasFlag fd.flags FD_CREATETIME
    ∧ fd.access_time.isSome = hasFlag fd.flags FD_ACCESSTIME
    ∧ fd.write_time.isSome = hasFlag fd.flags FD_WRITESTIME
    ∧ fd.size.isSome = hasFlag fd.flags FD_FILESIZE := by
  unfold FileDescriptor.parse at h
  split at h
  · exact absurd h (by simp)
  · split at h
    · rename_i name heq
      cases Except.ok.inj h
      refine ⟨?_, ?_, ?_, ?_⟩ <;>
        · simp only []
          split <;> simp_all
    · exact absurd h (by simp)

set_option maxRecDepth 8192 in
/-- C9 witness: the flag/field correspondence at a concrete parsed
descriptor (592 zero bytes). -/
theorem c9_fd_parse_flag_iff_witness :
    ((⟨0, 0, none, none, none, none, []⟩ : FileDescriptor)).creation_time.isSome
        = hasFlag (⟨0, 0, none, none, none, none, []⟩ : FileDescriptor).flags FD_CREATETIME
    ∧ ((⟨0, 0, none, none, none, none, []⟩ : FileDescriptor)).access_time.isSome
        = hasFlag (⟨0, 0, none, none, none, none, []⟩ : FileDescriptor).flags FD_ACCESSTIME
    ∧ ((⟨0, 0, none, none, none, none, []⟩ : FileDescriptor)).write_time.isSome
        = hasFlag (⟨0, 0, none, none, none, none, []⟩ : FileDescriptor).flags FD_WRITESTIME
    ∧ ((⟨0, 0, none, none, none, none, []⟩ : FileDescriptor)).size.isSome
        = hasFlag (⟨0, 0, none, none, none, none, []⟩ : FileDescriptor).flags FD_FILESIZE :=
  c9_fd_parse_flag_iff (List.replicate 592 0) _ (by decide)

set_option maxRecDepth 8192 in
/-- C10 counterexample: a buffer of exactly `4 + count × 592` bytes
(count = 1) whose single descriptor carries a lone-surrogate filename is
rejected, contradicting the claim that only too-short buffers are. -/
theorem c10_parse_list_counterexample :
    (([1, 0, 0, 0] ++ (List.replicate 72 0 ++ [0, 216] ++ List.replicate 518 0)).length
        = 4 + readU32 ([1, 0, 0, 0] ++ (List.replicate 72 0 ++ [0, 216]
            ++ List.replicate 518 0)) 0 * 592)
    ∧ FileDescriptor.parse_list
        ([1, 0, 0, 0] ++ (List.replicate 72 0 ++ [0, 216] ++ List.replicate 518 0))
        = .error .invalidUtf16 := by
  constructor
  · decide
  · decide

/-- C10 amended: `parse_list` returns `Ok []` whenever the count field is
zero, regardless of the remaining bytes; buffers shorter than 4, or shorter
than `4 + count × 592` for non-zero count, are rejected; and the only other
rejection is `InvalidEncoding` from a descriptor filename that is not valid
UTF-16. -/
theorem c10_parse_list_amended (data : List Nat) :
    (data.length < 4 →
      FileDescriptor.parse_list data
        = .error (.formatConversion "FileGroupDescriptorW too small for count"))
    ∧ (4 ≤ data.length → readU32 data 0 = 0 → FileDescriptor.parse_list data = .ok [])
    ∧ (4 ≤ data.length → readU32 data 0 ≠ 0 → data.length < 4 + readU32 data 0 * 592 →
        FileDescriptor.parse_list data
          = .error (.formatConversion ("FileGroupDescriptorW too small: "
              ++ toString data.length ++ " bytes (need "
              ++ toString (4 + readU32 data 0 * 592) ++ " for "
              ++ toString (readU32 data 0) ++ " files)")))
    ∧ (4 ≤ data.length → readU32 data 0 ≠ 0 → 4 + readU32 data 0 * 592 ≤ data.length →
        ∀ e, FileDescriptor.parse_list data = .error e → e = .invalidUtf16) := by
  refine ⟨?_, ?_, ?_, ?_⟩
  · intro hlt
    unfold FileDescriptor.parse_list
    rw [if_pos hlt]
  · intro hge hzero
    unfold FileDescriptor.parse_list
    rw [if_neg (by omega), hzero, if_pos rfl]
  · intro hge hnz hshort
    unfold FileDescriptor.parse_list
    rw [if_neg (by omega), if_neg hnz, if_pos hshort]
  · intro hge hnz hlong e h
    unfold FileDescriptor.parse_list at h
    rw [if_neg (by omega), if_neg hnz, if_neg (by omega)] at h
    refine parseRecords_error (readU32 data 0) (data.drop 4) ?_ e h
    simp only [List.length_drop]
    omega

/-- C10 witness: a zero count accepts trailing garbage; a non-zero count
with a short buffer is rejected. -/
theorem c10_parse_list_amended_witness :
    FileDescriptor.parse_list [0, 0, 0, 0, 9, 9, 9] = .ok []
    ∧ FileDescriptor.parse_list [1, 0, 0, 0]
      = .error (.formatConversion ("FileGroupDescriptorW too small: "
          ++ toString (4 : Nat) ++ " bytes (need " ++ toString (4 + 1 * 592) ++ " for "
          ++ toString (1 : Nat) ++ " files)")) := by
  constructor
  · exact (c10_parse_list_amended [0, 0, 0, 0, 9, 9, 9]).2.1 (by decide) (by decide)
  · have := (c10_parse_list_amended [1, 0, 0, 0]).2.2.1 (by decide) (by decide) (by decide)
    simpa using this

/-- C1 counterexample: for a 40-byte DIB payload declaring a 108-byte
header, `dib_to_bmp` writes pixel-data offset 54, not `14 + 108`. -/
theorem c1_dib_to_bmp_counterexample :
    (dib_to_bmp ([108, 0, 0, 0] ++ List.replicate 36 0)).map (fun out => readU32 out 10)
        = .ok 54
    ∧ 14 + readU32 ([108, 0, 0, 0] ++ List.replicate 36 0) 0 = 122 := by
  constructor
  · decide
  · decide

/-- C1 amended: for every DIB payload accepted by `dib_to_bmp`
(length ≥ 40 and `14 + length` within `u32`), the output is the two bytes
`"BM"`, the little-endian total file size `14 + length`, two zero `u16`
reserved fields, and the little-endian pixel-data offset 54 — the constant
`14 + 40` for the minimal header, independent of the declared header
size — followed by the DIB payload unchanged. -/
theorem c1_dib_to_bmp_spec (dib : List Nat) (h40 : 40 ≤ dib.length)
    (hmax : 14 + dib.length ≤ 4294967295) :
    dib_to_bmp dib
      = .ok ([66, 77] ++ u32Le (14 + dib.length) ++ [0, 0] ++ [0, 0] ++ u32Le 54 ++ dib) := by
  unfold dib_to_bmp
  rw [if_neg (by omega), if_neg (by omega)]
  rfl

/-- C1 witness: the amended layout at a concrete 40-byte payload. -/
theorem c1_dib_to_bmp_spec_witness :
    dib_to_bmp (List.replicate 40 3)
      = .ok ([66, 77] ++ u32Le (14 + (List.replicate 40 3).length)
          ++ [0, 0] ++ [0, 0] ++ u32Le 54 ++ List.replicate 40 3) :=
  c1_dib_to_bmp_spec (List.replicate 40 3) (by decide) (by decide)

/-- Strings appending a nonempty numeric rendering are longer than 29
characters when prefixed by the 25-character insufficient-data prefix. -/
theorem insufficient_msg_ne (a b : Nat) (t : String) (ht : t.length < 30) :
    "Insufficient pixel data: " ++ toString a ++ " < " ++ toString b ≠ t := by
  intro h
  have hl := congrArg String.length h
  rw [String.length_append, String.length_append, String.length_append] at hl
  have h1 := toString_nat_length_pos a
  have h2 := toString_nat_length_pos b
  have h3 : ("Insufficient pixel data: " : String).length = 25 := by decide
  have h4 : (" < " : String).length = 3 := by decide
  omega

theorem unsupported_msg_ne (a : Nat) (t : String) (ht : t.length < 28) :
    "Unsupported DIB bit depth: " ++ toString a ≠ t := by
  intro h
  have hl := congrArg String.length h
  rw [String.length_append] at hl
  have h1 := toString_nat_length_pos a
  have h3 : ("Unsupported DIB bit depth: " : String).length = 27 := by decide
  omega

/-- Lift message inequalities to `ClipboardError.imageDecode`. -/
theorem imageDecode_ne_headers (s : String)
    (h : s ≠ "DIB too small" ∧ s ≠ "Invalid DIB header size"
      ∧ s ≠ "DIB header larger than data") :
    ClipboardError.imageDecode s ≠ .imageDecode "DIB too small"
    ∧ ClipboardError.imageDecode s ≠ .imageDecode "Invalid DIB header size"
    ∧ ClipboardError.imageDecode s ≠ .imageDecode "DIB header larger than data" := by
  refine ⟨?_, ?_, ?_⟩ <;> simp [h.1, h.2.1, h.2.2]

/-- The errors `convert_32bit_dib` can produce. -/
theorem convert_32bit_dib_error (pd : List Nat) (w h : Nat) (td : Bool) (e : ClipboardError)
    (herr : convert_32bit_dib pd w h td = .error e) :
    e = .imageDecode ("Insufficient pixel data: " ++ toString pd.length
        ++ " < " ++ toString (wrap64 (w * h * 4)))
    ∨ e = .imageDecode "Failed to create image from DIB" := by
  unfold convert_32bit_dib at herr
  split at herr
  · exact Or.inl (Except.error.inj herr).symm
  · split at herr
    · exact absurd herr (by simp)
    · exact Or.inr (Except.error.inj herr).symm

/-- The errors `convert_24bit_dib` can produce. -/
theorem convert_24bit_dib_error (pd : List Nat) (w h : Nat) (td : Bool) (e : ClipboardError)
    (herr : convert_24bit_dib pd w h td = .error e) :
    e = .imageDecode ("Insufficient pixel data: " ++ toString pd.length
        ++ " < " ++ toString (rowSize24 w * h))
    ∨ e = .imageDecode "Failed to create image from DIB" := by
  unfold convert_24bit_dib at herr
  split at herr
  · exact Or.inl (Except.error.inj herr).symm
  · split at herr
    · exact absurd herr (by simp)
    · exact Or.inr (Except.error.inj herr).symm

/-- C2 counterexample: a 40-byte buffer whose declared header size is
exactly 40 satisfies the claim's side conditions (length ≥ 40, declared
≥ 40, declared does not exceed the length) yet the decode fails with the
header-validation error `DIB header larger than data`. -/
theorem c2_parse_dib_counterexample :
    40 ≤ ([40, 0, 0, 0] ++ List.replicate 36 0 : List Nat).length
    ∧ 40 ≤ readU32 ([40, 0, 0, 0] ++ List.replicate 36 0) 0
    ∧ readU32 ([40, 0, 0, 0] ++ List.replicate 36 0) 0
        ≤ ([40, 0, 0, 0] ++ List.replicate 36 0 : List Nat).length
    ∧ parse_dib_to_image ([40, 0, 0, 0] ++ List.replicate 36 0)
        = .error (.imageDecode "DIB header larger than data") := by
  refine ⟨by decide, by decide, by decide, by decide⟩

/-- C2 amended: DIB decode fails with `ImageDecode` when the buffer is
shorter than 40 bytes, when the declared header size is less than 40, or
when the declared header size is greater than **or equal to** the buffer
length; when the buffer is at least 40 bytes and `40 ≤ declared < length`,
the decode never fails with one of these header-validation errors (it may
still fail later for bit depth or insufficient pixel data). -/
theorem c2_parse_dib_header_validation (dib : List Nat) :
    (dib.length < 40 → parse_dib_to_image dib = .error (.imageDecode "DIB too small"))
    ∧ (40 ≤ dib.length → readU32 dib 0 < 40 →
        parse_dib_to_image dib = .error (.imageDecode "Invalid DIB header size"))
    ∧ (40 ≤ dib.length → 40 ≤ readU32 dib 0 → dib.length ≤ readU32 dib 0 →
        parse_dib_to_image dib = .error (.imageDecode "DIB header larger than data"))
    ∧ (40 ≤ dib.length → 40 ≤ readU32 dib 0 → readU32 dib 0 < dib.length →
        ∀ e, parse_dib_to_image dib = .error e →
          e ≠ .imageDecode "DIB too small"
          ∧ e ≠ .imageDecode "Invalid DIB header size"
          ∧ e ≠ .imageDecode "DIB header larger than data") := by
  refine ⟨?_, ?_, ?_, ?_⟩
  · intro hlt
    unfold parse_dib_to_image
    rw [if_pos hlt]
  · intro hge hbi
    unfold parse_dib_to_image
    rw [if_neg (by omega), if_pos hbi]
  · intro hge hbi hbig
    unfold parse_dib_to_image
    rw [if_neg (by omega), if_neg (by omega), if_pos (by omega)]
  · intro hge hbi hlt e herr
    unfold parse_dib_to_image at herr
    rw [if_neg (by omega), if_neg (by omega), if_neg (by omega)] at herr
    by_cases h32 : readU16 dib 14 = 32
    · rw [if_pos h32] at herr
      rcases convert_32bit_dib_error _ _ _ _ _ herr with h | h <;> subst h
      · exact imageDecode_ne_headers _
          ⟨insufficient_msg_ne _ _ _ (by decide), insufficient_msg_ne _ _ _ (by decide),
           insufficient_msg_ne _ _ _ (by decide)⟩
      · exact imageDecode_ne_headers _ ⟨by decide, by decide, by decide⟩
    · rw [if_neg h32] at herr
      by_cases h24 : readU16 dib 14 = 24
      · rw [if_pos h24] at herr
        rcases convert_24bit_dib_error _ _ _ _ _ herr with h | h <;> subst h
        · exact imageDecode_ne_headers _
            ⟨insufficient_msg_ne _ _ _ (by decide), insufficient_msg_ne _ _ _ (by decide),
             insufficient_msg_ne _ _ _ (by decide)⟩
        · exact imageDecode_ne_headers _ ⟨by decide, by decide, by decide⟩
      · rw [if_neg h24] at herr
        have he := (Except.error.inj herr).symm
        subst he
        exact imageDecode_ne_headers _
          ⟨unsupported_msg_ne _ _ (by decide), unsupported_msg_ne _ _ (by decide),
           unsupported_msg_ne _ _ (by decide)⟩

/-- C2 witness: the too-small branch at an empty buffer and the
`declared < 40` branch at a 40-byte buffer declaring 10. -/
theorem c2_parse_dib_header_validation_witness :
    parse_dib_to_image [] = .error (.imageDecode "DIB too small")
    ∧ parse_dib_to_image ([10, 0, 0, 0] ++ List.replicate 36 0)
      = .error (.imageDecode "Invalid DIB header size") :=
  ⟨(c2_parse_dib_header_validation []).1 (by decide),
   (c2_parse_dib_header_validation ([10, 0, 0, 0] ++ List.replicate 36 0)).2.1
     (by decide) (by decide)⟩

/-- C6: `unicode_to_text` fails with `SizeExceeded` over the limit, with
`InvalidEncoding` for odd byte length or an invalid UTF-16 code-unit
sequence, and otherwise strips exactly one trailing zero code unit if the
last unit is zero (none otherwise) and returns the decoded string. -/
theorem c6_unicode_to_text_spec (maxSize : Nat) (data : List Nat) :
    (maxSize < data.length →
      unicode_to_text maxSize data = .error (.dataSizeExceeded data.length maxSize))
    ∧ (data.length ≤ maxSize → data.length % 2 = 1 →
        unicode_to_text maxSize data = .error .invalidUtf16)
    ∧ (data.length ≤ maxSize → data.length % 2 = 0 → utf16Decode (toU16s data) = none →
        unicode_to_text maxSize data = .error .invalidUtf16)
    ∧ (data.length ≤ maxSize → data.length % 2 = 0 →
        ∀ s, utf16Decode (if (toU16s data).getLast? = some 0
            then (toU16s data).dropLast else toU16s data) = some s →
          unicode_to_text maxSize data = .ok s) := by
  refine ⟨?_, ?_, ?_, ?_⟩
  · intro hbig
    unfold unicode_to_text
    rw [if_pos (by omega)]
  · intro hle hodd
    unfold unicode_to_text
    rw [if_neg (by omega), if_pos (by omega)]
  · intro hle heven hnone
    unfold unicode_to_text
    rw [if_neg (by omega), if_neg (by omega)]
    by_cases hz : (toU16s data).getLast? = some 0
    · have hne : toU16s data ≠ [] := by
        intro hnil
        rw [hnil] at hz
        exact absurd hz (by simp)
      have hlast : (toU16s data).getLast hne = 0 := by
        have := List.getLast?_eq_getLast (toU16s data) hne
        rw [hz] at this
        exact (Option.some.inj this).symm
      have hsplit : (toU16s data).dropLast ++ [0] = toU16s data := by
        conv_rhs => rw [← List.dropLast_append_getLast hne]
        rw [hlast]
      have hd : utf16Decode ((toU16s data).dropLast) = none := by
        have h0 := utf16Decode_append_zero ((toU16s data).dropLast)
        rw [hsplit, hnone] at h0
        cases hcc : utf16Decode ((toU16s data).dropLast) with
        | none => rfl
        | some v => rw [hcc] at h0; exact absurd h0 (by simp)
      rw [if_pos hz, hd]
    · rw [if_neg hz, hnone]
  · intro hle heven s hs
    unfold unicode_to_text
    rw [if_neg (by omega), if_neg (by omega), hs]

/-- C6 witness: a buffer with a trailing null is stripped and decoded. -/
theorem c6_unicode_to_text_spec_witness :
    unicode_to_text 16777216 [72, 0, 105, 0, 0, 0] = .ok [72, 105] :=
  (c6_unicode_to_text_spec 16777216 [72, 0, 105, 0, 0, 0]).2.2.2
    (by decide) (by decide) [72, 105] (by decide)

/-- C8: from a fresh detector (any config with `max_history ≥ 1`), after
`record_formats(F, Rdp)` at time `t`, `would_cause_loop(F)` (checked as the
Local side) is true at `t`; false after `clear()`; and false at any `t'`
with more than `window_ms` elapsed since `t`, without `clear()`. -/
theorem c8_loop_detector_scenario (c : LoopDetectionConfig) (F : List ClipboardFormat)
    (t t' : Nat) (hmax : 1 ≤ c.max_history) (ht : t + c.window_ms < t') :
    ((LoopDetector.with_config c).record_formats F .rdp t).would_cause_loop F t = true
    ∧ (((LoopDetector.with_config c).record_formats F .rdp t).clear).would_cause_loop
        F t = false
    ∧ ((LoopDetector.with_config c).record_formats F .rdp t).would_cause_loop F t' = false := by
  have hcfg : ((LoopDetector.with_config c).record_formats F .rdp t).config = c := rfl
  have hist : ((LoopDetector.with_config c).record_formats F .rdp t).format_history
      = [{ hash := hash_formats F, source := .rdp, timestamp := t }] := by
    show trimDown c.max_history (evictOld (c.window_ms * 2) t
      ([] ++ [{ hash := hash_formats F, source := .rdp, timestamp := t }])) = _
    rw [List.nil_append]
    unfold evictOld trimDown
    rw [List.dropWhile_cons]
    simp only [Nat.sub_self, Nat.zero_lt_succ]
    rw [if_neg (by simp)]
    simp only [List.length_cons, List.length_nil]
    rw [Nat.sub_eq_zero_of_le (by omega), List.drop_zero]
  refine ⟨?_, ?_, ?_⟩
  · unfold LoopDetector.would_cause_loop check_hash_collision
    rw [hist, hcfg]
    simp [checkGo, ClipboardSource.opposite]
  · unfold LoopDetector.would_cause_loop check_hash_collision LoopDetector.clear
    simp [checkGo]
  · unfold LoopDetector.would_cause_loop check_hash_collision
    rw [hist, hcfg]
    simp only [List.reverse_cons, List.reverse_nil, List.nil_append]
    unfold checkGo
    rw [if_pos (by show c.window_ms < t' - t; omega)]

/-- C8 witness: the scenario with the default configuration, an empty
format list, recording at 0 and re-checking at 501 ms. -/
theorem c8_loop_detector_scenario_witness :
    ((LoopDetector.with_config defaultLoopConfig).record_formats [] .rdp 0).would_cause_loop
        [] 0 = true
    ∧ (((LoopDetector.with_config defaultLoopConfig).record_formats [] .rdp
        0).clear).would_cause_loop [] 0 = false
    ∧ ((LoopDetector.with_config defaultLoopConfig).record_formats [] .rdp
        0).would_cause_loop [] 501 = false :=
  c8_loop_detector_scenario defaultLoopConfig [] 0 501 (by decide) (by decide)

theorem leU32_recover (v : Nat) (hv : v < 4294967296) :
    leU32 (v % 256) (v / 256 % 256) (v / 65536 % 256) (v / 16777216 % 256) = v := by
  unfold leU32; omega

theorem i32Le_ofNat (v : Nat) (hv : v < 4294967296) : i32Le (v : Int) = u32Le v := by
  unfold i32Le
  congr 1
  omega

theorem i32Le_negOfNat (v : Nat) (h1 : 1 ≤ v) (hv : v ≤ 4294967296) :
    i32Le (-(v : Int)) = u32Le (4294967296 - v) := by
  unfold i32Le
  congr 1
  omega

theorem create_dib_expand (w h : Nat) (data : List Nat) (hw1 : 1 ≤ w) (hw : w ≤ 4096)
    (hh1 : 1 ≤ h) (hh : h ≤ 4096) :
    create_dib_from_image w h data
      = ([40, 0, 0, 0] ++ u32Le w ++ u32Le (4294967296 - h) ++ [1, 0, 32, 0, 0, 0, 0, 0]
          ++ u32Le (w * h * 4) ++ List.replicate 16 0) ++ bgraOfRgba data := by
  have hwh : w * h ≤ 16777216 := by
    calc w * h ≤ 4096 * 4096 := Nat.mul_le_mul hw hh
    _ = 16777216 := by norm_num
  simp only [create_dib_from_image]
  rw [if_pos (by omega : w ≤ 2147483647), if_pos (by omega : h ≤ 2147483647)]
  rw [i32Le_ofNat w (by omega), i32Le_negOfNat h (by omega) (by omega)]
  rw [Nat.min_eq_left (by omega : w * h ≤ 4294967295)]
  rw [Nat.min_eq_left (by omega : w * h * 4 ≤ 4294967295)]
  simp [u32Le, u16Le, i32Le]

theorem dibHeader_r0 (w h : Nat) (rest : List Nat) :
    readU32 (([40, 0, 0, 0] ++ u32Le w ++ u32Le (4294967296 - h) ++ [1, 0, 32, 0, 0, 0, 0, 0]
      ++ u32Le (w * h * 4) ++ List.replicate 16 0) ++ rest) 0 = 40 := rfl

theorem dibHeader_r4 (w h : Nat) (rest : List Nat) :
    readU32 (([40, 0, 0, 0] ++ u32Le w ++ u32Le (4294967296 - h) ++ [1, 0, 32, 0, 0, 0, 0, 0]
      ++ u32Le (w * h * 4) ++ List.replicate 16 0) ++ rest) 4
    = leU32 (w % 256) (w / 256 % 256) (w / 65536 % 256) (w / 16777216 % 256) := rfl

theorem dibHeader_r8 (w h : Nat) (rest : List Nat) :
    readU32 (([40, 0, 0, 0] ++ u32Le w ++ u32Le (4294967296 - h) ++ [1, 0, 32, 0, 0, 0, 0, 0]
      ++ u32Le (w * h * 4) ++ List.replicate 16 0) ++ rest) 8
    = leU32 ((4294967296 - h) % 256) ((4294967296 - h) / 256 % 256)
        ((4294967296 - h) / 65536 % 256) ((4294967296 - h) / 16777216 % 256) := rfl

theorem dibHeader_r14 (w h : Nat) (rest : List Nat) :
    readU16 (([40, 0, 0, 0] ++ u32Le w ++ u32Le (4294967296 - h) ++ [1, 0, 32, 0, 0, 0, 0, 0]
      ++ u32Le (w * h * 4) ++ List.replicate 16 0) ++ rest) 14 = 32 := rfl

theorem dibHeader_len (w h : Nat) (rest : List Nat) :
    (([40, 0, 0, 0] ++ u32Le w ++ u32Le (4294967296 - h) ++ [1, 0, 32, 0, 0, 0, 0, 0]
      ++ u32Le (w * h * 4) ++ List.replicate 16 0) ++ rest).length = 40 + rest.length := by
  simp [u32Le]
  omega

theorem dibHeader_drop40 (w h : Nat) (rest : List Nat) :
    (([40, 0, 0, 0] ++ u32Le w ++ u32Le (4294967296 - h) ++ [1, 0, 32, 0, 0, 0, 0, 0]
      ++ u32Le (w * h * 4) ++ List.replicate 16 0) ++ rest).drop 40 = rest := rfl

theorem bgraOfRgba_length (l : List Nat) (h : l.length % 4 = 0) :
    (bgraOfRgba l).length = l.length := by
  induction l using bgraOfRgba.induct with
  | case1 r g b a rest ih =>
    simp only [bgraOfRgba, List.length_cons]
    have hr : rest.length % 4 = 0 := by simp [List.length_cons] at h; omega
    rw [ih hr]
  | case2 l hne =>
    rcases l with _ | ⟨a, _ | ⟨b, _ | ⟨c, _ | ⟨d, rest⟩⟩⟩⟩
    · simp [bgraOfRgba]
    · exact absurd h (by simp)
    · exact absurd h (by simp)
    · exact absurd h (by simp)
    · exact (hne a b c d rest rfl).elim

theorem bgraOfRgba_append (l1 l2 : List Nat) (h : l1.length % 4 = 0) :
    bgraOfRgba (l1 ++ l2) = bgraOfRgba l1 ++ bgraOfRgba l2 := by
  induction l1 using bgraOfRgba.induct with
  | case1 r g b a rest ih =>
    have hr : rest.length % 4 = 0 := by simp [List.length_cons] at h; omega
    simp only [List.cons_append, bgraOfRgba, List.append_eq, ih hr]
  | case2 l hne =>
    rcases l with _ | ⟨a, _ | ⟨b, _ | ⟨c, _ | ⟨d, rest⟩⟩⟩⟩
    · simp [bgraOfRgba]
    · exact absurd h (by simp)
    · exact absurd h (by simp)
    · exact absurd h (by simp)
    · exact (hne a b c d rest rfl).elim

theorem bgraOfRgba_involution (l : List Nat) (h : l.length % 4 = 0) :
    bgraOfRgba (bgraOfRgba l) = l := by
  induction l using bgraOfRgba.induct with
  | case1 r g b a rest ih =>
    have hr : rest.length % 4 = 0 := by simp [List.length_cons] at h; omega
    simp only [bgraOfRgba, ih hr]
  | case2 l hne =>
    rcases l with _ | ⟨a, _ | ⟨b, _ | ⟨c, _ | ⟨d, rest⟩⟩⟩⟩
    · simp [bgraOfRgba]
    · exact absurd h (by simp)
    · exact absurd h (by simp)
    · exact absurd h (by simp)
    · exact (hne a b c d rest rfl).elim

theorem take4_drop (pd : List Nat) (j : Nat) (h : j + 4 ≤ pd.length) :
    (pd.drop j).take 4 = [byteAt pd j, byteAt pd (j + 1), byteAt pd (j + 2), byteAt pd (j + 3)] := by
  rw [List.drop_eq_getElem_cons (by omega), List.drop_eq_getElem_cons (by omega),
    List.drop_eq_getElem_cons (by omega), List.drop_eq_getElem_cons (by omega)]
  simp only [List.take_succ_cons, List.take_zero]
  show _ = [pd.getD j 0, pd.getD (j + 1) 0, pd.getD (j + 2) 0, pd.getD (j + 3) 0]
  rw [List.getD_eq_getElem pd 0 (by omega : j < pd.length),
    List.getD_eq_getElem pd 0 (by omega : j + 1 < pd.length),
    List.getD_eq_getElem pd 0 (by omega : j + 2 < pd.length),
    List.getD_eq_getElem pd 0 (by omega : j + 3 < pd.length)]

theorem pix32_in_bounds (pd : List Nat) (off : Nat) (h : off + 4 ≤ pd.length)
    (h64 : pd.length < 18446744073709551616) :
    pix32 pd off = bgraOfRgba ((pd.drop off).take 4) := by
  unfold pix32
  rw [if_pos (by unfold wrap64; omega)]
  rw [take4_drop pd off h]
  rfl

theorem pixRow (pd : List Nat) (o w : Nat) (h64 : pd.length < 18446744073709551616) :
    ∀ (hb : o + 4 * w ≤ pd.length),
    (List.range w).flatMap (fun x => pix32 pd (wrap64 (o + x * 4)))
      = bgraOfRgba ((pd.drop o).take (4 * w)) := by
  induction w with
  | zero => intro _; simp [bgraOfRgba]
  | succ k ih =>
    intro hb
    rw [List.range_succ, List.flatMap_append, ih (by omega)]
    simp only [List.flatMap_cons, List.flatMap_nil, List.append_nil]
    rw [show wrap64 (o + k * 4) = o + 4 * k by unfold wrap64; omega]
    rw [pix32_in_bounds pd (o + 4 * k) (by omega) h64]
    rw [show 4 * (k + 1) = 4 * k + 4 by ring]
    rw [List.take_add, List.drop_drop]
    rw [bgraOfRgba_append _ _ (by
      simp only [List.length_take, List.length_drop]
      omega)]

theorem pixRows (pd : List Nat) (w : Nat) (h64 : pd.length < 18446744073709551616) :
    ∀ (hgt : Nat) (hb : 4 * w * hgt ≤ pd.length),
    (List.range hgt).flatMap (fun y =>
        (List.range w).flatMap (fun x => pix32 pd (wrap64 (wrap64 (y * w * 4) + x * 4))))
      = bgraOfRgba (pd.take (4 * w * hgt)) := by
  intro hgt
  induction hgt with
  | zero => intro _; simp [bgraOfRgba]
  | succ k ih =>
    intro hb
    have e1 : 4 * w * k + 4 * w = 4 * w * (k + 1) := by ring
    rw [List.range_succ, List.flatMap_append, ih (by omega)]
    simp only [List.flatMap_cons, List.flatMap_nil, List.append_nil]
    have e2 : wrap64 (k * w * 4) = 4 * w * k := by
      have e3 : k * w * 4 = 4 * w * k := by ring
      unfold wrap64
      omega
    simp only [e2]
    rw [pixRow pd (4 * w * k) w h64 (by omega)]
    rw [← e1, List.take_add]
    have h3 : 4 * w * k ≤ pd.length := by omega
    have e4 : 4 * w * k = 4 * (w * k) := by ring
    rw [bgraOfRgba_append _ _ (by
      simp only [List.length_take, Nat.min_eq_left h3]
      omega)]

/-- C4 amended: for every valid RGBA pixel buffer of dimensions w-by-h with
1 <= w,h <= 4096, encoding with create_dib_from_image and decoding with
parse_dib_to_image returns the identical image (the 32-bit path is
lossless); the degenerate dimensions w = 0 or h = 0 are excluded because
the decoder rejects a pixel-less DIB whose declared header size equals the
buffer length. -/
theorem c4_dib_roundtrip (w h : Nat) (data : List Nat)
    (hw1 : 1 ≤ w) (hw : w ≤ 4096) (hh1 : 1 ≤ h) (hh : h ≤ 4096)
    (hlen : data.length = w * h * 4) (hbytes : ∀ b ∈ data, b < 256) :
    parse_dib_to_image (create_dib_from_image w h data) = .ok (.rgba8 w h data) := by
  have hwh : w * h ≤ 16777216 := by
    calc w * h ≤ 4096 * 4096 := Nat.mul_le_mul hw hh
    _ = 16777216 := by norm_num
  have hmod : data.length % 4 = 0 := by omega
  have hpos4 : 4 ≤ w * h * 4 := by
    calc (4 : Nat) = 1 * 1 * 4 := by norm_num
    _ ≤ w * h * 4 := Nat.mul_le_mul (Nat.mul_le_mul hw1 hh1) (Nat.le_refl 4)
  have e5 : 4 * w * h = w * h * 4 := by ring
  have e6 : w * h * 4 = (w * h) * 4 := by ring
  have hblen : (bgraOfRgba data).length = data.length := bgraOfRgba_length data hmod
  rw [create_dib_expand w h data hw1 hw hh1 hh]
  unfold parse_dib_to_image
  rw [if_neg (by rw [dibHeader_len]; omega)]
  rw [dibHeader_r0, if_neg (by omega)]
  rw [if_neg (by rw [dibHeader_len]; omega)]
  rw [dibHeader_r14, if_pos rfl]
  rw [dibHeader_drop40]
  have hri4 : readI32 (([40, 0, 0, 0] ++ u32Le w ++ u32Le (4294967296 - h)
      ++ [1, 0, 32, 0, 0, 0, 0, 0] ++ u32Le (w * h * 4) ++ List.replicate 16 0)
      ++ bgraOfRgba data) 4 = (w : Int) := by
    simp only [readI32]
    rw [dibHeader_r4, leU32_recover w (by omega), if_pos (by omega)]
  have hri8 : readI32 (([40, 0, 0, 0] ++ u32Le w ++ u32Le (4294967296 - h)
      ++ [1, 0, 32, 0, 0, 0, 0, 0] ++ u32Le (w * h * 4) ++ List.replicate 16 0)
      ++ bgraOfRgba data) 8 = -(h : Int) := by
    simp only [readI32]
    rw [dibHeader_r8, leU32_recover (4294967296 - h) (by omega), if_neg (by omega)]
    omega
  rw [hri4, hri8]
  simp only [Int.natAbs_ofNat, Int.natAbs_neg]
  rw [decide_eq_true (show -(h : Int) < 0 by omega)]
  -- now: convert_32bit_dib (bgraOfRgba data) w h true = ok (rgba8 w h data)
  have hpix : rgba32Data (bgraOfRgba data) w h true = data := by
    unfold rgba32Data
    simp only [if_true]
    rw [pixRows (bgraOfRgba data) w (by omega) h (by rw [hblen]; omega)]
    rw [show 4 * w * h = data.length by omega]
    rw [← hblen, List.take_length]
    exact bgraOfRgba_involution data hmod
  unfold convert_32bit_dib
  rw [if_neg (by unfold wrap64; omega)]
  rw [if_pos ⟨by omega, by rw [hpix]; omega⟩]
  rw [hpix]

/-- C4 counterexample: the 0-by-0 RGBA image (an empty but
dimension-valid pixel buffer, within the claimed bound w,h <= 4096)
encodes to a 40-byte DIB that the decoder rejects, so the 32-bit
round-trip fails at that input. -/
theorem c4_dib_roundtrip_counterexample :
    parse_dib_to_image (create_dib_from_image 0 0 [])
      = .error (.imageDecode "DIB header larger than data") := by decide

/-- C4 witness: the round-trip at a concrete 1-by-1 image. -/
theorem c4_dib_roundtrip_witness :
    parse_dib_to_image (create_dib_from_image 1 1 [1, 2, 3, 4])
      = .ok (.rgba8 1 1 [1, 2, 3, 4]) :=
  c4_dib_roundtrip 1 1 [1, 2, 3, 4] (by decide) (by decide) (by decide) (by decide)
    (by decide) (by decide)

theorem linesGo_cons (cur : List Nat) (c : Nat) (rest : List Nat) :
    linesGo cur (c :: rest)
      = if c = 10 then stripCr cur.reverse :: linesGo [] rest else linesGo (c :: cur) rest := rfl

theorem linesGo_nil (cur : List Nat) :
    linesGo cur [] = if cur = [] then [] else [cur.reverse] := rfl

/-- A CRLF-terminated LF-free chunk contributes one line to `linesGo`. -/
theorem linesGo_crlf (c : List Nat) : ∀ (acc rest : List Nat), (∀ b ∈ c, b ≠ 10) →
    linesGo acc (c ++ 13 :: 10 :: rest) = (acc.reverse ++ c) :: linesGo [] rest := by
  induction c with
  | nil =>
    intro acc rest _
    show linesGo acc (13 :: 10 :: rest) = _
    rw [linesGo_cons, if_neg (by omega), linesGo_cons, if_pos rfl]
    rw [List.reverse_cons]
    unfold stripCr
    rw [List.getLast?_concat, if_pos rfl, List.dropLast_concat]
    simp
  | cons b c' ih =>
    intro acc rest hb
    show linesGo acc (b :: (c' ++ 13 :: 10 :: rest)) = _
    rw [linesGo_cons, if_neg (hb b (by simp)), ih (b :: acc) rest (fun x hx => hb x (by simp [hx]))]
    simp [List.append_assoc]

/-- A trailing LF-free nonempty chunk is the final line. -/
theorem linesGo_last (c : List Nat) : ∀ (acc : List Nat), (∀ b ∈ c, b ≠ 10) →
    acc.reverse ++ c ≠ [] →
    linesGo acc c = [acc.reverse ++ c] := by
  induction c with
  | nil =>
    intro acc _ hne
    rw [linesGo_nil, if_neg (by simpa using hne)]
    simp
  | cons b c' ih =>
    intro acc hb hne
    rw [linesGo_cons, if_neg (hb b (by simp)), ih (b :: acc) (fun x hx => hb x (by simp [hx]))
      (by simp)]
    simp [List.append_assoc]

theorem decDigitsGo_digits (fuel : Nat) : ∀ n, ∀ b ∈ decDigitsGo fuel n, 48 ≤ b ∧ b ≤ 57 := by
  induction fuel with
  | zero => intro n b hb; exact absurd hb (by simp [decDigitsGo])
  | succ f ih =>
    intro n b hb
    unfold decDigitsGo at hb
    split at hb
    · rename_i hlt
      simp only [List.mem_singleton] at hb
      omega
    · rw [List.mem_append] at hb
      rcases hb with hb | hb
      · exact ih (n / 10) b hb
      · simp only [List.mem_singleton] at hb
        have := Nat.mod_lt n (show 0 < 10 by norm_num)
        omega

theorem decValue_append_digit (l : List Nat) (d : Nat) :
    decValue (l ++ [d]) = decValue l * 10 + (d - 48) := by
  unfold decValue
  rw [List.foldl_append]
  rfl

theorem decDigitsGo_value (fuel : Nat) : ∀ n, n < fuel → decValue (decDigitsGo fuel n) = n := by
  induction fuel with
  | zero => omega
  | succ f ih =>
    intro n hn
    unfold decDigitsGo
    split
    · rename_i hlt
      unfold decValue
      simp only [List.foldl_cons, List.foldl_nil]
      omega
    · rename_i hge
      rw [decValue_append_digit, ih (n / 10) (by omega)]
      omega

theorem decDigitsGo_ne_nil (fuel n : Nat) (h : 0 < fuel) : decDigitsGo fuel n ≠ [] := by
  cases fuel with
  | zero => omega
  | succ f =>
    unfold decDigitsGo
    split
    · simp
    · simp

theorem decDigitsGo_length (k : Nat) : ∀ (fuel n : Nat), 1 ≤ k → n < 10 ^ k →
    (decDigitsGo fuel n).length ≤ k := by
  induction k with
  | zero => omega
  | succ k' ih =>
    intro fuel n _ hn
    cases fuel with
    | zero => simp [decDigitsGo]
    | succ f =>
      unfold decDigitsGo
      split
      · simp
      · rename_i hge
        rw [List.length_append]
        have hk' : 1 ≤ k' := by
          by_contra hk
          have : k' = 0 := by omega
          subst this
          simp at hn
          omega
        have : n / 10 < 10 ^ k' := by
          have h10 : 10 ^ (k' + 1) = 10 ^ k' * 10 := by ring
          omega
        have := ih f (n / 10) hk' this
        simp only [List.length_singleton]
        omega

theorem pad8_length (n : Nat) (h : n < 100000000) : (pad8 n).length = 8 := by
  unfold pad8
  rw [List.length_append, List.length_replicate]
  have h1 : (decDigits n).length ≤ 8 := decDigitsGo_length 8 (n + 1) n (by omega) (by norm_num; omega)
  omega

theorem pad8_digits (n : Nat) : ∀ b ∈ pad8 n, 48 ≤ b ∧ b ≤ 57 := by
  intro b hb
  unfold pad8 at hb
  rw [List.mem_append] at hb
  rcases hb with hb | hb
  · have := List.eq_of_mem_replicate hb
    omega
  · exact decDigitsGo_digits (n + 1) n b hb

theorem decValue_zeros (k : Nat) : ∀ (l : List Nat),
    decValue (List.replicate k 48 ++ l) = decValue l := by
  induction k with
  | zero => intro l; simp
  | succ k' ih =>
    intro l
    show decValue (48 :: (List.replicate k' 48 ++ l)) = _
    unfold decValue
    simp only [List.foldl_cons]
    show decValue (List.replicate k' 48 ++ l) = _
    exact ih l

theorem dropWhile_false (p : Nat → Bool) (l : List Nat) (h : ∀ b ∈ l, p b = false) :
    l.dropWhile p = l := by
  cases l with
  | nil => rfl
  | cons a t => rw [List.dropWhile_cons, if_neg (by simp [h a (by simp)])]

theorem trimAscii_of_no_ws (l : List Nat) (h : ∀ b ∈ l, isAsciiWs b = false) :
    trimAscii l = l := by
  unfold trimAscii
  rw [dropWhile_false _ _ h, dropWhile_false _ _ (fun b hb => h b (List.mem_reverse.mp hb)),
    List.reverse_reverse]

theorem digits_not_ws (b : Nat) (h : 48 ≤ b ∧ b ≤ 57) : isAsciiWs b = false := by
  unfold isAsciiWs
  simp only [decide_eq_false_iff_not]
  omega

theorem parseUsize_pad8 (n : Nat) (h : n < 100000000) : parseUsize (pad8 n) = some n := by
  have hne43 : ¬ (pad8 n).head? = some 43 := by
    rcases hh : (pad8 n).head? with _ | b
    · simp
    · have hb : b ∈ pad8 n := List.mem_of_mem_head? (by rw [hh]; rfl)
      have := pad8_digits n b hb
      simp only [Option.some.injEq]
      omega
  simp only [parseUsize]
  rw [if_neg hne43]
  rw [if_pos ⟨List.ne_nil_of_length_pos (by rw [pad8_length n h]; omega),
    List.all_eq_true.mpr (fun b hb => by simpa using pad8_digits n b hb)⟩]
  have hv : decValue (pad8 n) = n := by
    unfold pad8 decDigits
    rw [decValue_zeros]
    exact decDigitsGo_value (n + 1) n (by omega)
  rw [hv, if_pos (by omega)]

theorem utf8DecodeGo_ascii (fuel : Nat) : ∀ (l : List Nat), l.length ≤ fuel →
    (∀ b ∈ l, b < 128) → utf8DecodeGo fuel l = some l := by
  induction fuel with
  | zero =>
    intro l hl _
    have : l = [] := List.eq_nil_of_length_eq_zero (by omega)
    subst this
    rfl
  | succ f ih =>
    intro l hl h
    cases l with
    | nil => rfl
    | cons c rest =>
      show (match utf8Step c rest with
        | some (s, r) => (utf8DecodeGo f r).map (s :: ·)
        | none => none) = _
      unfold utf8Step
      rw [if_pos (h c (by simp))]
      simp only []
      rw [ih rest (by simp at hl; omega) (fun x hx => h x (by simp [hx]))]
      rfl

theorem utf8DecodeBytes_ascii (l : List Nat) (h : ∀ b ∈ l, b < 128) :
    utf8DecodeBytes l = some l :=
  utf8DecodeGo_ascii l.length l (le_refl _) h

theorem utf8Valid_ascii (l : List Nat) (h : ∀ b ∈ l, b < 128) : utf8Valid l = true := by
  unfold utf8Valid
  rw [utf8DecodeBytes_ascii l h]
  rfl

theorem forall_mem_append_intro {p : Nat → Prop} (l1 l2 : List Nat)
    (h1 : ∀ b ∈ l1, p b) (h2 : ∀ b ∈ l2, p b) : ∀ b ∈ l1 ++ l2, p b := by
  intro b hb
  rcases List.mem_append.mp hb with hb | hb
  · exact h1 b hb
  · exact h2 b hb

theorem forall_mem_cons_intro {p : Nat → Prop} (c : Nat) (l : List Nat)
    (hc : p c) (h : ∀ b ∈ l, p b) : ∀ b ∈ c :: l, p b := by
  intro b hb
  rcases List.mem_cons.mp hb with hb | hb
  · exact hb ▸ hc
  · exact h b hb

theorem html_encode_expand (maxSize : Nat) (html : List Nat) (hle : html.length ≤ maxSize) :
    html_to_cf_html maxSize html = .ok (
      asciiBytes "Version:0.9" ++ 13 :: 10 :: (asciiBytes "StartHTML:" ++ pad8 97
      ++ (13 :: 10 :: (asciiBytes "EndHTML:" ++ pad8 (129 + html.length + 32)
      ++ (13 :: 10 :: (asciiBytes "StartFragment:" ++ pad8 129
      ++ (13 :: 10 :: (asciiBytes "EndFragment:" ++ pad8 (129 + html.length)
      ++ (13 :: 10 :: (cfHtmlPrefix ++ html ++ cfHtmlSuffix)))))))))) := by
  have s1 : asciiBytes "Version:0.9\r\nStartHTML:"
      = asciiBytes "Version:0.9" ++ 13 :: 10 :: asciiBytes "StartHTML:" := by decide
  have s2 : asciiBytes "\r\nEndHTML:" = 13 :: 10 :: asciiBytes "EndHTML:" := by decide
  have s3 : asciiBytes "\r\nStartFragment:" = 13 :: 10 :: asciiBytes "StartFragment:" := by decide
  have s4 : asciiBytes "\r\nEndFragment:" = 13 :: 10 :: asciiBytes "EndFragment:" := by decide
  have l1 : cfHtmlHeaderTemplate.length = 97 := by decide
  have l2 : cfHtmlPrefix.length = 32 := by decide
  have l3 : cfHtmlSuffix.length = 32 := by decide
  unfold html_to_cf_html
  rw [if_neg (by omega)]
  rw [l1, l2, l3, s1, s2, s3, s4]
  norm_num [List.append_assoc]

set_option maxHeartbeats 2000000 in
/-- C5 amended: CF_HTML round-trip for nonempty ASCII fragments. -/
theorem c5_cf_html_roundtrip (maxSize : Nat) (html : List Nat)
    (hml : html.length ≤ maxSize) (hne : html ≠ [])
    (hascii : ∀ b ∈ html, b < 128 ∧ b ≠ 13 ∧ b ≠ 10)
    (hbound : 161 + html.length < 100000000) :
    (html_to_cf_html maxSize html).bind cf_html_to_html = .ok html := by
  rw [html_encode_expand maxSize html hml]
  show cf_html_to_html _ = _
  have hpadE : ∀ n, ∀ b ∈ pad8 n, b < 128 ∧ b ≠ 10 := by
    intro n b hb
    have := pad8_digits n b hb
    omega
  -- the six lines
  have hc2 : ∀ b ∈ asciiBytes "StartHTML:" ++ pad8 97, b ≠ 10 := by
    intro b hb
    rcases List.mem_append.mp hb with hb | hb
    · exact (by decide : ∀ x ∈ asciiBytes "StartHTML:", x ≠ 10) b hb
    · exact (hpadE 97 b hb).2
  have hc3 : ∀ b ∈ asciiBytes "EndHTML:" ++ pad8 (129 + html.length + 32), b ≠ 10 := by
    intro b hb
    rcases List.mem_append.mp hb with hb | hb
    · exact (by decide : ∀ x ∈ asciiBytes "EndHTML:", x ≠ 10) b hb
    · exact (hpadE _ b hb).2
  have hc4 : ∀ b ∈ asciiBytes "StartFragment:" ++ pad8 129, b ≠ 10 := by
    intro b hb
    rcases List.mem_append.mp hb with hb | hb
    · exact (by decide : ∀ x ∈ asciiBytes "StartFragment:", x ≠ 10) b hb
    · exact (hpadE _ b hb).2
  have hc5 : ∀ b ∈ asciiBytes "EndFragment:" ++ pad8 (129 + html.length), b ≠ 10 := by
    intro b hb
    rcases List.mem_append.mp hb with hb | hb
    · exact (by decide : ∀ x ∈ asciiBytes "EndFragment:", x ≠ 10) b hb
    · exact (hpadE _ b hb).2
  have hc6 : ∀ b ∈ cfHtmlPrefix ++ html ++ cfHtmlSuffix, b ≠ 10 := by
    intro b hb
    rcases List.mem_append.mp hb with hb | hb
    · rcases List.mem_append.mp hb with hb | hb
      · exact (by decide : ∀ x ∈ cfHtmlPrefix, x ≠ 10) b hb
      · exact (hascii b hb).2.2
    · exact (by decide : ∀ x ∈ cfHtmlSuffix, x ≠ 10) b hb
  -- ASCII-ness of the whole encoded buffer
  have hpad128 : ∀ n, ∀ b ∈ pad8 n, b < 128 := by
    intro n b hb
    have := pad8_digits n b hb
    omega
  have hhtml128 : ∀ b ∈ html, b < 128 := fun b hb => (hascii b hb).1
  have hmem : ∀ b ∈ asciiBytes "Version:0.9" ++ 13 :: 10 :: (asciiBytes "StartHTML:" ++ pad8 97
      ++ (13 :: 10 :: (asciiBytes "EndHTML:" ++ pad8 (129 + html.length + 32)
      ++ (13 :: 10 :: (asciiBytes "StartFragment:" ++ pad8 129
      ++ (13 :: 10 :: (asciiBytes "EndFragment:" ++ pad8 (129 + html.length)
      ++ (13 :: 10 :: (cfHtmlPrefix ++ html ++ cfHtmlSuffix))))))))), b < 128 := by
    refine forall_mem_append_intro _ _ (by decide) ?_
    refine forall_mem_cons_intro _ _ (by omega) (forall_mem_cons_intro _ _ (by omega) ?_)
    refine forall_mem_append_intro _ _
      (forall_mem_append_intro _ _ (by decide) (hpad128 97)) ?_
    refine forall_mem_cons_intro _ _ (by omega) (forall_mem_cons_intro _ _ (by omega) ?_)
    refine forall_mem_append_intro _ _
      (forall_mem_append_intro _ _ (by decide) (hpad128 _)) ?_
    refine forall_mem_cons_intro _ _ (by omega) (forall_mem_cons_intro _ _ (by omega) ?_)
    refine forall_mem_append_intro _ _
      (forall_mem_append_intro _ _ (by decide) (hpad128 _)) ?_
    refine forall_mem_cons_intro _ _ (by omega) (forall_mem_cons_intro _ _ (by omega) ?_)
    refine forall_mem_append_intro _ _
      (forall_mem_append_intro _ _ (by decide) (hpad128 _)) ?_
    refine forall_mem_cons_intro _ _ (by omega) (forall_mem_cons_intro _ _ (by omega) ?_)
    exact forall_mem_append_intro _ _
      (forall_mem_append_intro _ _ (by decide) hhtml128) (by decide)
  -- the six lines of the encoded buffer
  have hlines : linesBytes (asciiBytes "Version:0.9" ++ 13 :: 10 :: (asciiBytes "StartHTML:" ++ pad8 97
      ++ (13 :: 10 :: (asciiBytes "EndHTML:" ++ pad8 (129 + html.length + 32)
      ++ (13 :: 10 :: (asciiBytes "StartFragment:" ++ pad8 129
      ++ (13 :: 10 :: (asciiBytes "EndFragment:" ++ pad8 (129 + html.length)
      ++ (13 :: 10 :: (cfHtmlPrefix ++ html ++ cfHtmlSuffix))))))))))
      = [asciiBytes "Version:0.9", asciiBytes "StartHTML:" ++ pad8 97,
         asciiBytes "EndHTML:" ++ pad8 (129 + html.length + 32),
         asciiBytes "StartFragment:" ++ pad8 129,
         asciiBytes "EndFragment:" ++ pad8 (129 + html.length),
         cfHtmlPrefix ++ html ++ cfHtmlSuffix] := by
    unfold linesBytes
    rw [linesGo_crlf _ _ _ (by decide), linesGo_crlf _ _ _ hc2, linesGo_crlf _ _ _ hc3,
      linesGo_crlf _ _ _ hc4, linesGo_crlf _ _ _ hc5,
      linesGo_last _ _ hc6 (by simp [cfHtmlPrefix, asciiBytes])]
    simp
  -- decode
  have hL1 : 1 ≤ html.length := List.length_pos.mpr hne
  unfold cf_html_to_html
  rw [utf8Valid_ascii _ hmem, if_neg (by simp)]
  have hS : parse_header_value (asciiBytes "Version:0.9" ++ 13 :: 10 :: (asciiBytes "StartHTML:" ++ pad8 97
      ++ (13 :: 10 :: (asciiBytes "EndHTML:" ++ pad8 (129 + html.length + 32)
      ++ (13 :: 10 :: (asciiBytes "StartFragment:" ++ pad8 129
      ++ (13 :: 10 :: (asciiBytes "EndFragment:" ++ pad8 (129 + html.length)
      ++ (13 :: 10 :: (cfHtmlPrefix ++ html ++ cfHtmlSuffix))))))))))
      (asciiBytes "StartFragment:") "StartFragment:" = .ok 129 := by
    unfold parse_header_value
    rw [hlines]
    rw [List.find?_cons_of_neg _ (by decide), List.find?_cons_of_neg _ (by decide)]
    rw [List.find?_cons_of_neg _ (by
      rw [show asciiBytes "StartFragment:" = 83 :: asciiBytes "tartFragment:" from by decide,
        show asciiBytes "EndHTML:" = 69 :: asciiBytes "ndHTML:" from by decide]
      simp [List.isPrefixOf])]
    rw [List.find?_cons_of_pos _ (by decide)]
    decide
  have hEf : parse_header_value (asciiBytes "Version:0.9" ++ 13 :: 10 :: (asciiBytes "StartHTML:" ++ pad8 97
      ++ (13 :: 10 :: (asciiBytes "EndHTML:" ++ pad8 (129 + html.length + 32)
      ++ (13 :: 10 :: (asciiBytes "StartFragment:" ++ pad8 129
      ++ (13 :: 10 :: (asciiBytes "EndFragment:" ++ pad8 (129 + html.length)
      ++ (13 :: 10 :: (cfHtmlPrefix ++ html ++ cfHtmlSuffix))))))))))
      (asciiBytes "EndFragment:") "EndFragment:" = .ok (129 + html.length) := by
    unfold parse_header_value
    rw [hlines]
    rw [List.find?_cons_of_neg _ (by decide), List.find?_cons_of_neg _ (by decide)]
    rw [List.find?_cons_of_neg _ (by
      rw [show asciiBytes "EndFragment:" = 69 :: 110 :: 100 :: 70 :: asciiBytes "ragment:" from by decide,
        show asciiBytes "EndHTML:" = 69 :: 110 :: 100 :: 72 :: asciiBytes "TML:" from by decide]
      simp [List.isPrefixOf])]
    rw [List.find?_cons_of_neg _ (by decide)]
    rw [List.find?_cons_of_pos _ (by
      rw [List.isPrefixOf_iff_prefix]
      exact List.prefix_append _ _)]
    show (match parseUsize (trimAscii (List.drop (asciiBytes "EndFragment:").length
        (asciiBytes "EndFragment:" ++ pad8 (129 + html.length)))) with
      | some v => Except.ok v
      | none => Except.error (ClipboardError.formatConversion
          ("missing " ++ "EndFragment:" ++ " header"))) = Except.ok (129 + html.length)
    rw [show (asciiBytes "EndFragment:").length = 12 from by decide]
    rw [show (List.drop 12 (asciiBytes "EndFragment:" ++ pad8 (129 + html.length)) : List Nat)
      = pad8 (129 + html.length) from rfl]
    rw [trimAscii_of_no_ws _ (fun b hb => digits_not_ws b (pad8_digits _ b hb))]
    rw [parseUsize_pad8 (129 + html.length) (by omega)]
  rw [hS, hEf]
  have hElen : (asciiBytes "Version:0.9" ++ 13 :: 10 :: (asciiBytes "StartHTML:" ++ pad8 97
      ++ (13 :: 10 :: (asciiBytes "EndHTML:" ++ pad8 (129 + html.length + 32)
      ++ (13 :: 10 :: (asciiBytes "StartFragment:" ++ pad8 129
      ++ (13 :: 10 :: (asciiBytes "EndFragment:" ++ pad8 (129 + html.length)
      ++ (13 :: 10 :: (cfHtmlPrefix ++ html ++ cfHtmlSuffix)))))))))).length
      = 161 + html.length := by
    simp only [List.length_append, List.length_cons,
      pad8_length 97 (by norm_num), pad8_length (129 + html.length + 32) (by omega),
      pad8_length 129 (by norm_num), pad8_length (129 + html.length) (by omega),
      show (asciiBytes "Version:0.9").length = 11 from by decide,
      show (asciiBytes "StartHTML:").length = 10 from by decide,
      show (asciiBytes "EndHTML:").length = 8 from by decide,
      show (asciiBytes "StartFragment:").length = 14 from by decide,
      show (asciiBytes "EndFragment:").length = 12 from by decide,
      show cfHtmlPrefix.length = 32 from by decide,
      show cfHtmlSuffix.length = 32 from by decide]
    omega
  dsimp only
  rw [hElen]
  rw [if_neg (by omega)]
  rw [show 129 + html.length - 129 = html.length from by omega]
  rw [show cfHtmlPrefix ++ html ++ cfHtmlSuffix = cfHtmlPrefix ++ (html ++ cfHtmlSuffix)
    from by simp [List.append_assoc]]
  rw [show (asciiBytes "Version:0.9" ++ 13 :: 10 :: (asciiBytes "StartHTML:" ++ pad8 97
      ++ (13 :: 10 :: (asciiBytes "EndHTML:" ++ pad8 (129 + html.length + 32)
      ++ (13 :: 10 :: (asciiBytes "StartFragment:" ++ pad8 129
      ++ (13 :: 10 :: (asciiBytes "EndFragment:" ++ pad8 (129 + html.length)
      ++ (13 :: 10 :: (cfHtmlPrefix ++ (html ++ cfHtmlSuffix)))))))))))
    = (asciiBytes "Version:0.9" ++ 13 :: 10 :: (asciiBytes "StartHTML:" ++ pad8 97
      ++ (13 :: 10 :: (asciiBytes "EndHTML:" ++ pad8 (129 + html.length + 32)
      ++ (13 :: 10 :: (asciiBytes "StartFragment:" ++ pad8 129
      ++ (13 :: 10 :: (asciiBytes "EndFragment:" ++ pad8 (129 + html.length)
      ++ (13 :: 10 :: cfHtmlPrefix))))))))) ++ (html ++ cfHtmlSuffix)
    from by simp [List.append_assoc]]
  rw [List.drop_left' (by
    simp only [List.length_append, List.length_cons,
      pad8_length 97 (by norm_num), pad8_length (129 + html.length + 32) (by omega),
      pad8_length 129 (by norm_num), pad8_length (129 + html.length) (by omega),
      show (asciiBytes "Version:0.9").length = 11 from by decide,
      show (asciiBytes "StartHTML:").length = 10 from by decide,
      show (asciiBytes "EndHTML:").length = 8 from by decide,
      show (asciiBytes "StartFragment:").length = 14 from by decide,
      show (asciiBytes "EndFragment:").length = 12 from by decide,
      show cfHtmlPrefix.length = 32 from by decide]
    try omega)]
  rw [List.take_left]

set_option maxRecDepth 8192 in
/-- C5 counterexample: the empty string (ASCII, no CR/LF, within any
`max_size`) encodes successfully but fails to decode, because the encoder
emits equal StartFragment/EndFragment offsets and the decoder rejects
`start >= end`. -/
theorem c5_cf_html_roundtrip_counterexample :
    (html_to_cf_html 16777216 []).bind cf_html_to_html
      = .error (.formatConversion "invalid CF_HTML offsets") := by decide

set_option maxRecDepth 8192 in
/-- C5 witness: the round-trip at the concrete fragment `"hi"`. -/
theorem c5_cf_html_roundtrip_witness :
    (html_to_cf_html 16777216 (asciiBytes "hi")).bind cf_html_to_html
      = .ok (asciiBytes "hi") :=
  c5_cf_html_roundtrip 16777216 (asciiBytes "hi") (by decide) (by decide) (by decide)
    (by decide)

theorem percent_decode_id (p : List Nat) (h : ∀ c ∈ p, c ≠ 37) : percent_decode p = p := by
  induction p with
  | nil => rfl
  | cons c rest ih =>
    rw [percent_decode.eq_def]
    dsimp only
    rw [if_neg (h c (by simp)), ih (fun x hx => h x (by simp [hx]))]

theorem percent_encode_id (p : List Nat) (h : ∀ c ∈ p, c ≠ 32 ∧ c ≠ 35 ∧ c ≠ 37 ∧ c ≠ 63) :
    percent_encode p = p := by
  unfold percent_encode
  induction p with
  | nil => rfl
  | cons c rest ih =>
    have hc := h c (by simp)
    simp only [List.flatMap_cons]
    rw [if_neg hc.1, if_neg hc.2.1, if_neg hc.2.2.1, if_neg hc.2.2.2]
    rw [ih (fun x hx => h x (by simp [hx]))]
    rfl

theorem encodeUtf16_bmp (p : List Nat) (h : ∀ c ∈ p, c < 0x10000) : encodeUtf16 p = p := by
  unfold encodeUtf16
  induction p with
  | nil => rfl
  | cons c rest ih =>
    simp only [List.flatMap_cons]
    rw [if_pos (h c (by simp)), ih (fun x hx => h x (by simp [hx]))]
    rfl

theorem utf16Decode_bmp (p : List Nat) (h : ∀ c ∈ p, c < 0xD800 ∨ 0xE000 ≤ c) :
    utf16Decode p = some p := by
  induction p with
  | nil => rfl
  | cons c rest ih =>
    rw [utf16Decode_cons_bmp c rest (h c (by simp)), ih (fun x hx => h x (by simp [hx]))]
    rfl

/-- `str::lines` recovers the chunks of a CRLF-joined list of nonempty
LF-free chunks. -/
theorem linesBytes_intercalate (ls : List (List Nat)) (hne : ls ≠ [])
    (h : ∀ l ∈ ls, l ≠ [] ∧ ∀ b ∈ l, b ≠ 10) :
    linesBytes (List.intercalate [13, 10] ls) = ls := by
  induction ls with
  | nil => exact absurd rfl hne
  | cons a rest ih =>
    cases rest with
    | nil =>
      show linesBytes (List.intercalate [13, 10] [a]) = [a]
      rw [show List.intercalate [13, 10] [a] = a from by simp [List.intercalate]]
      unfold linesBytes
      rw [linesGo_last a [] (h a (by simp)).2 (by simpa using (h a (by simp)).1)]
      simp
    | cons b rest' =>
      rw [show List.intercalate [13, 10] (a :: b :: rest')
        = a ++ 13 :: 10 :: List.intercalate [13, 10] (b :: rest') from by
          simp [List.intercalate, List.intersperse]]
      unfold linesBytes
      rw [linesGo_crlf a [] _ (h a (by simp)).2]
      have := ih (by simp) (fun l hl => h l (by simp [hl]))
      unfold linesBytes at this
      rw [this]
      simp

theorem filterMap_strip_fileuri (ps : List (List Nat)) :
    (ps.map (asciiBytes "file://" ++ ·)).filterMap
      (fun line => if (asciiBytes "file://").isPrefixOf line then some (line.drop 7) else none)
      = ps := by
  induction ps with
  | nil => rfl
  | cons p rest ih =>
    simp only [List.map_cons, List.filterMap_cons]
    rw [if_pos (by
      rw [List.isPrefixOf_iff_prefix]
      exact List.prefix_append _ _)]
    rw [show ((asciiBytes "file://" ++ p).drop 7 : List Nat) = p from rfl, ih]

/-- `hdropPaths` recovers the path list from a CRLF-joined `file://` URI
list. -/
theorem hdropPaths_intercalate (ps : List (List Nat)) (hne : ps ≠ [])
    (h : ∀ p ∈ ps, p ≠ [] ∧ ∀ b ∈ p, b ≠ 10) :
    hdropPaths (List.intercalate [13, 10] (ps.map (asciiBytes "file://" ++ ·))) = ps := by
  unfold hdropPaths
  rw [linesBytes_intercalate (ps.map (asciiBytes "file://" ++ ·))
    (by simpa using hne)
    (by
      intro l hl
      rcases List.mem_map.mp hl with ⟨p, hp, rfl⟩
      refine ⟨by simp [asciiBytes], ?_⟩
      intro b hb
      rcases List.mem_append.mp hb with hb | hb
      · exact (by decide : ∀ x ∈ asciiBytes "file://", x ≠ 10) b hb
      · exact (h p hp).2 b hb)]
  rw [List.filter_eq_self.mpr (by
    intro l hl
    rcases List.mem_map.mp hl with ⟨p, hp, rfl⟩
    simp [asciiBytes])]
  exact filterMap_strip_fileuri ps

theorem toU16s_append (l1 : List Nat) (h : l1.length % 2 = 0) :
    ∀ l2, toU16s (l1 ++ l2) = toU16s l1 ++ toU16s l2 := by
  induction l1 using toU16s.induct with
  | case1 b0 b1 rest ih =>
    intro l2
    rw [show ((b0 :: b1 :: rest : List Nat) ++ l2) = b0 :: b1 :: (rest ++ l2) from rfl]
    rw [show toU16s (b0 :: b1 :: (rest ++ l2)) = (b0 + 256 * b1) :: toU16s (rest ++ l2) from rfl]
    rw [ih (by simp [List.length_cons] at h; omega) l2]
    rfl
  | case2 l hne =>
    rcases l with _ | ⟨a, _ | ⟨b, t⟩⟩
    · intro l2; rfl
    · exact absurd h (by simp)
    · exact absurd (hne a b t rfl) (fun x => x)

theorem toU16s_wide (p : List Nat) (h : ∀ c ∈ p, c < 256) :
    toU16s (p.flatMap fun c => [c, 0]) = p := by
  induction p with
  | nil => rfl
  | cons c rest ih =>
    simp only [List.flatMap_cons]
    rw [show ((([c, 0] : List Nat)) ++ rest.flatMap fun x => [x, 0])
      = c :: 0 :: rest.flatMap (fun x => [x, 0]) from rfl]
    rw [show toU16s (c :: 0 :: rest.flatMap fun x => [x, 0])
      = (c + 256 * 0) :: toU16s (rest.flatMap fun x => [x, 0]) from rfl]
    rw [ih (fun x hx => h x (by simp [hx]))]
    norm_num

theorem takeWhile_append_zero (p : List Nat) (h : ∀ c ∈ p, c ≠ 0) :
    ∀ t, (p ++ 0 :: t).takeWhile (· ≠ 0) = p ∧ (p ++ 0 :: t).dropWhile (· ≠ 0) = 0 :: t := by
  induction p with
  | nil =>
    intro t
    constructor
    · simp [List.takeWhile_cons]
    · simp [List.dropWhile_cons]
  | cons c rest ih =>
    intro t
    have hc : c ≠ 0 := h c (by simp)
    have := ih (fun x hx => h x (by simp [hx])) t
    constructor
    · rw [List.cons_append, List.takeWhile_cons, if_pos (by simpa using hc), this.1]
    · rw [List.cons_append, List.dropWhile_cons, if_pos (by simpa using hc), this.2]

theorem flatMap_u16Le (p : List Nat) (h : ∀ c ∈ p, c < 256) :
    p.flatMap u16Le = p.flatMap fun c => [c, 0] := by
  induction p with
  | nil => rfl
  | cons c rest ih =>
    simp only [List.flatMap_cons]
    rw [ih (fun x hx => h x (by simp [hx]))]
    have hc := h c (by simp)
    unfold u16Le
    rw [Nat.mod_eq_of_lt hc, Nat.div_eq_of_lt hc]

theorem length_flatMap_pairs (p : List Nat) :
    (p.flatMap fun c => [c, 0]).length = 2 * p.length := by
  induction p with
  | nil => rfl
  | cons c rest ih =>
    simp only [List.flatMap_cons, List.length_append, List.length_cons, ih]
    simp
    omega

theorem parseWideGo_spec (ps : List (List Nat)) : ∀ (fuel : Nat),
    ps.length + 1 ≤ fuel →
    (∀ p ∈ ps, p ≠ [] ∧ ∀ c ∈ p, c ≠ 0 ∧ (c < 0xD800 ∨ 0xE000 ≤ c)) →
    parseWideGo fuel ((ps.flatMap fun p => p ++ [0]) ++ [0]) = ps := by
  induction ps with
  | nil =>
    intro fuel hf _
    cases fuel with
    | zero => omega
    | succ f => rfl
  | cons p rest ih =>
    intro fuel hf hp
    obtain ⟨hpne, hpc⟩ := hp p (by simp)
    cases p with
    | nil => exact absurd rfl hpne
    | cons c p' =>
      cases fuel with
      | zero => omega
      | succ f =>
        have hshape : (((c :: p') :: rest).flatMap fun p => p ++ [0]) ++ [0]
            = c :: (p' ++ 0 :: ((rest.flatMap fun p => p ++ [0]) ++ [0])) := by
          simp [List.flatMap_cons, List.append_assoc]
        rw [hshape]
        rw [parseWideGo.eq_def]
        dsimp only
        rw [if_neg (hpc c (by simp)).1]
        have htw := takeWhile_append_zero (c :: p') (fun x hx => (hpc x hx).1)
          ((rest.flatMap fun p => p ++ [0]) ++ [0])
        rw [show (c :: (p' ++ 0 :: ((rest.flatMap fun p => p ++ [0]) ++ [0])))
          = (c :: p') ++ 0 :: ((rest.flatMap fun p => p ++ [0]) ++ [0]) from rfl]
        rw [htw.1, htw.2]
        rw [utf16Decode_bmp (c :: p') (fun x hx => (hpc x hx).2)]
        rw [show ((0 :: ((rest.flatMap fun p => p ++ [0]) ++ [0])).drop 1 : List Nat)
          = (rest.flatMap fun p => p ++ [0]) ++ [0] from rfl]
        rw [ih f (by simp at hf; omega) (fun q hq => hp q (by simp [hq]))]

theorem encBodyUnits (ps : List (List Nat))
    (h : ∀ p ∈ ps, ∀ c ∈ p, 33 ≤ c ∧ c ≤ 126 ∧ c ≠ 35 ∧ c ≠ 37 ∧ c ≠ 63) :
    toU16s ((ps.flatMap fun path => (encodeUtf16 (percent_decode path)).flatMap u16Le
        ++ [0, 0]) ++ [0, 0])
      = (ps.flatMap fun p => p ++ [0]) ++ [0] := by
  induction ps with
  | nil => rfl
  | cons p rest ih =>
    have hc := h p (by simp)
    simp only [List.flatMap_cons]
    rw [percent_decode_id p (fun c hcm => by have := hc c hcm; omega)]
    rw [encodeUtf16_bmp p (fun c hcm => by have := hc c hcm; omega)]
    rw [flatMap_u16Le p (fun c hcm => by have := hc c hcm; omega)]
    rw [show (((p.flatMap fun c => [c, 0]) ++ [0, 0])
        ++ (rest.flatMap fun path => (encodeUtf16 (percent_decode path)).flatMap u16Le
          ++ [0, 0])) ++ [0, 0]
      = (p.flatMap fun c => [c, 0])
        ++ (0 :: 0 :: ((rest.flatMap fun path =>
            (encodeUtf16 (percent_decode path)).flatMap u16Le ++ [0, 0]) ++ [0, 0]))
      from by simp [List.append_assoc]]
    rw [toU16s_append _ (by rw [length_flatMap_pairs]; omega) _]
    rw [toU16s_wide p (fun c hcm => by have := hc c hcm; omega)]
    rw [show toU16s (0 :: 0 :: ((rest.flatMap fun path =>
          (encodeUtf16 (percent_decode path)).flatMap u16Le ++ [0, 0]) ++ [0, 0]))
      = (0 + 256 * 0) :: toU16s ((rest.flatMap fun path =>
          (encodeUtf16 (percent_decode path)).flatMap u16Le ++ [0, 0]) ++ [0, 0]) from rfl]
    rw [ih (fun q hq => h q (by simp [hq]))]
    simp [List.append_assoc]

theorem units_len_ge (ps : List (List Nat)) :
    ps.length + 1 ≤ ((ps.flatMap fun p => p ++ [0]) ++ [0]).length := by
  induction ps with
  | nil => simp
  | cons p rest ih =>
    simp only [List.flatMap_cons, List.length_append, List.length_cons] at ih ⊢
    omega

theorem hdrop_hdr_shape (rest : List Nat) :
    u32Le 20 ++ i32Le 0 ++ i32Le 0 ++ u32Le 0 ++ u32Le 1 ++ rest
      = [20, 0, 0, 0, 0, 0, 0, 0, 0, 0, 0, 0, 0, 0, 0, 0, 1, 0, 0, 0] ++ rest := by
  simp [u32Le, i32Le]

theorem hdropHdr_r0 (rest : List Nat) :
    readU32 ([20, 0, 0, 0, 0, 0, 0, 0, 0, 0, 0, 0, 0, 0, 0, 0, 1, 0, 0, 0] ++ rest) 0
      = 20 := rfl

theorem hdropHdr_r16 (rest : List Nat) :
    readU32 ([20, 0, 0, 0, 0, 0, 0, 0, 0, 0, 0, 0, 0, 0, 0, 0, 1, 0, 0, 0] ++ rest) 16
      = 1 := rfl

theorem hdropHdr_len (rest : List Nat) :
    ([20, 0, 0, 0, 0, 0, 0, 0, 0, 0, 0, 0, 0, 0, 0, 0, 1, 0, 0, 0] ++ rest).length
      = 20 + rest.length := by
  simp
  omega

theorem hdropHdr_drop20 (rest : List Nat) :
    ([20, 0, 0, 0, 0, 0, 0, 0, 0, 0, 0, 0, 0, 0, 0, 0, 1, 0, 0, 0] ++ rest).drop 20
      = rest := rfl

/-- C3: HDROP round-trip for CRLF-joined absolute `file://` URI lists
whose paths use printable ASCII without space, hash, percent or question
mark. -/
theorem c3_hdrop_roundtrip (ps : List (List Nat)) (hne : ps ≠ [])
    (habs : ∀ p ∈ ps, p.head? = some 47)
    (hchars : ∀ p ∈ ps, ∀ c ∈ p, 33 ≤ c ∧ c ≤ 126 ∧ c ≠ 35 ∧ c ≠ 37 ∧ c ≠ 63) :
    (uri_list_to_hdrop (List.intercalate [13, 10]
        (ps.map (asciiBytes "file://" ++ ·)))).bind hdrop_to_uri_list
      = .ok (List.intercalate [13, 10] (ps.map (asciiBytes "file://" ++ ·))) := by
  have hpne : ∀ p ∈ ps, p ≠ [] := by
    intro p hp h0
    have := habs p hp
    rw [h0] at this
    exact absurd this (by simp)
  have hnolf : ∀ p ∈ ps, p ≠ [] ∧ ∀ b ∈ p, b ≠ 10 := fun p hp =>
    ⟨hpne p hp, fun b hb => by have := hchars p hp b hb; omega⟩
  have hpaths := hdropPaths_intercalate ps hne hnolf
  unfold uri_list_to_hdrop
  rw [hpaths, if_neg hne]
  show hdrop_to_uri_list _ = _
  rw [hdrop_hdr_shape, List.append_assoc]
  unfold hdrop_to_uri_list
  rw [hdropHdr_len, hdropHdr_r0, hdropHdr_r16, hdropHdr_drop20]
  rw [if_neg (by omega)]
  rw [if_neg (by
    simp only [List.length_append, List.length_cons, List.length_nil]
    omega)]
  rw [if_pos (by omega)]
  rw [encBodyUnits ps hchars]
  rw [parseWideGo_spec ps _ (units_len_ge ps)
    (fun p hp => ⟨hpne p hp, fun c hc => by have := hchars p hp c hc; omega⟩)]
  rw [List.map_congr_left (fun p hp => by
    rw [percent_encode_id p (fun c hc => by have := hchars p hp c hc; omega)])]

/-- C3 witness: the round-trip at the concrete two-path list
`file:///a`, `file:///b`. -/
theorem c3_hdrop_roundtrip_witness :
    (uri_list_to_hdrop (List.intercalate [13, 10]
        (([[47, 97], [47, 98]] : List (List Nat)).map (asciiBytes "file://" ++ ·)))).bind
        hdrop_to_uri_list
      = .ok (List.intercalate [13, 10]
          (([[47, 97], [47, 98]] : List (List Nat)).map (asciiBytes "file://" ++ ·))) :=
  c3_hdrop_roundtrip [[47, 97], [47, 98]] (by decide) (by decide) (by decide)

end LamcoRdp
